import Mathlib

/-!
# Verification of the checklist reconciliation and day-rollover engine

This file is a shallow embedding, in Lean 4, of the core state-manipulating
functions of the Telegram-business checklist bot (files `bot/state.py`,
`bot/helpers_checklist.py`, `bot/helpers_daily.py`, `bot/helpers_pending.py`),
together with theorems settling the specification claims about them.

Modelling conventions:
* Calendar dates (ISO `YYYY-MM-DD` strings in the Python code) are modelled as
  naturals ordered chronologically; lexicographic comparison of equal-length
  ISO strings coincides with chronological order, so `<`/`=` on `Nat` is a
  faithful image of the string comparisons the code performs.
* Remote Telegram calls (send/edit/delete of messages and checklist widgets)
  are recorded as an effect list; remote calls are assumed to succeed (the
  code catches and logs remote failures; failure injection is out of scope).
  Fresh platform message ids are supplied by a counter threaded through the
  functions that create widgets.
* The SQLite store plus the in-memory `STATE` cache are collapsed into the
  single record the functions mutate: the code is single-writer and
  `load_user_state` returns the cached record, so the defensive re-reads in
  `create_checklist_for_user` (guards against a concurrent creator) see the
  very record being mutated and those branches collapse in the sequential
  model.
* `save_user_state` is modelled by its state-visible part: running
  `validate_and_clean_user_state` (duplicate removal) on the record; the
  serialisation to SQLite has no further effect on the record.
* Python `str.lower`/`str.strip`/`str.split` are modelled with Lean's
  `String.toLower`/`String.trim`/`String.split Char.isWhitespace`; the
  case-folding of the alphabets exercised by the theorems (ASCII) agrees.
-/

/-- `TaskItem` from `bot/state.py`: one checklist entry. -/
structure TaskItem where
  item_id : Nat
  text : String
  done : Bool
deriving DecidableEq, Repr

/-- `TagChecklistState` from `bot/state.py`: the record for one tag checklist.
`checklist_message_id` is typed `int` in the dataclass but is assigned `None`
by the rollover engine, hence `Option Nat` here. -/
structure TagChecklistState where
  title : String
  checklist_message_id : Option Nat
  tasks : List TaskItem
deriving DecidableEq, Repr

/-- `UserState` from `bot/state.py` (the per-chat root aggregate).  The
`tag_checklists` dict is modelled as an insertion-ordered association list,
matching Python dict iteration order.  Times of day are minutes since
midnight. -/
structure UserState where
  business_connection_id : String := ""
  asked_for_time : Bool := false
  waiting_for_time : Bool := false
  time : Option Nat := none
  day_end_time : Option Nat := none
  timezone_offset_minutes : Int := 0
  checklist_message_id : Option Nat := none
  date : Option Nat := none
  tasks : List TaskItem := []
  last_closed_date : Option Nat := none
  last_opened_date : Option Nat := none
  service_message_ids : List Nat := []
  pending_task_text : Option String := none
  pending_task_message_id : Option Nat := none
  pending_service_message_ids : List Nat := []
  awaiting_tag : Bool := false
  tags_history : List String := []
  tags_page_index : Nat := 0
  pending_confirm_job_id : Option String := none
  next_rollover_job_name : Option String := none
  tag_checklists : List (String × TagChecklistState) := []
deriving DecidableEq, Repr

/-- The text of the automatically seeded onboarding task
(`"улыбнуться себе в зеркало"` in `helpers_daily.py`/`helpers_checklist.py`). -/
def onboardingText : String := "улыбнуться себе в зеркало"

/-- Drop leading and trailing whitespace from a character list
(Python `str.strip`). -/
def trimChars (cs : List Char) : List Char :=
  ((cs.dropWhile Char.isWhitespace).reverse.dropWhile Char.isWhitespace).reverse

/-- `task.text.strip().lower()` — the normalisation key used by
`clean_tasks_list` in `bot/state.py` (trim outer whitespace, lowercase),
implemented by structural recursion over the character list. -/
def stripLower (text : String) : String :=
  String.mk ((trimChars text.data).map Char.toLower)

/-- First pass of `clean_tasks_list`: drop tasks whose `item_id` was already
seen, keeping the first occurrence (`seen_item_ids` set). -/
def dedupByIdAux (seen : List Nat) : List TaskItem → List TaskItem
  | [] => []
  | t :: ts =>
    if seen.contains t.item_id then dedupByIdAux seen ts
    else t :: dedupByIdAux (t.item_id :: seen) ts

/-- Second pass of `clean_tasks_list`: drop tasks whose trimmed, lowercased
text was already seen, keeping the first occurrence (`seen_texts` set). -/
def dedupByTextAux (seen : List String) : List TaskItem → List TaskItem
  | [] => []
  | t :: ts =>
    if seen.contains (stripLower t.text) then dedupByTextAux seen ts
    else t :: dedupByTextAux (stripLower t.text :: seen) ts

/-- `clean_tasks_list` from `bot/state.py`: dedup by `item_id`, then dedup by
trimmed lowercased text, first occurrence kept in both passes. -/
def cleanTasksList (tasks : List TaskItem) : List TaskItem :=
  if tasks.isEmpty then tasks
  else dedupByTextAux [] (dedupByIdAux [] tasks)

/-- `validate_and_clean_user_state` from `bot/state.py`: clean the daily task
list and every tag checklist's task list in place. -/
def validateAndCleanUserState (s : UserState) : UserState :=
  { s with
    tasks := cleanTasksList s.tasks
    tag_checklists := s.tag_checklists.map
      (fun p => (p.1, { p.2 with tasks := cleanTasksList p.2.tasks })) }

/-- `save_user_state` from `bot/state.py`, restricted to its record-visible
effect: validate-and-clean, then store (cache + SQLite row carry exactly the
cleaned record, so persisting is the identity on the cleaned record). -/
def saveUserState (s : UserState) : UserState :=
  validateAndCleanUserState s

section SaveLemmas

@[simp] theorem saveUserState_tasks (s : UserState) :
    (saveUserState s).tasks = cleanTasksList s.tasks := rfl

@[simp] theorem saveUserState_tag_checklists (s : UserState) :
    (saveUserState s).tag_checklists =
      s.tag_checklists.map
        (fun p => (p.1, { p.2 with tasks := cleanTasksList p.2.tasks })) := rfl

@[simp] theorem saveUserState_date (s : UserState) :
    (saveUserState s).date = s.date := rfl

@[simp] theorem saveUserState_last_closed_date (s : UserState) :
    (saveUserState s).last_closed_date = s.last_closed_date := rfl

@[simp] theorem saveUserState_last_opened_date (s : UserState) :
    (saveUserState s).last_opened_date = s.last_opened_date := rfl

@[simp] theorem saveUserState_checklist_message_id (s : UserState) :
    (saveUserState s).checklist_message_id = s.checklist_message_id := rfl

@[simp] theorem saveUserState_pending_task_text (s : UserState) :
    (saveUserState s).pending_task_text = s.pending_task_text := rfl

@[simp] theorem saveUserState_awaiting_tag (s : UserState) :
    (saveUserState s).awaiting_tag = s.awaiting_tag := rfl

@[simp] theorem saveUserState_time (s : UserState) :
    (saveUserState s).time = s.time := rfl

end SaveLemmas

/-! ## Daily report and day close (`bot/helpers_daily.py`) -/

/-- One line of the Markdown report built by `generate_daily_report`.  The
report string is modelled at line granularity: each constructor corresponds to
one `report_lines.append(...)`/fixed-message line of the source. -/
inductive ReportLine where
  /-- the `**{human_date}**` heading -/
  | header (date : Nat)
  /-- an empty separator line -/
  | blank
  /-- a `[✅] {task.text}` line -/
  | taskLine (text : String)
  /-- a `**{tag}**` heading -/
  | tagHeader (tag : String)
  /-- the fixed `"За сегодня нет выполненных задач."` line -/
  | nothingDone
deriving DecidableEq, Repr

/-- A remote side effect performed against the chat platform or archive. -/
inductive Effect where
  /-- the report message sent to the user (`bot.send_message`) -/
  | sendReport (lines : List ReportLine)
  /-- the append of the report to the per-date archive file -/
  | archiveAppend (date : Nat) (lines : List ReportLine)
  /-- deletion of a message (`safe_delete` / `delete_business_messages`) -/
  | deleteMessage (msgId : Nat)
  /-- creation of the daily checklist widget (`bot.send_checklist`) -/
  | sendDailyChecklist (msgId : Nat)
  /-- creation of a tag checklist widget (`bot.send_checklist`) -/
  | sendTagChecklist (tag : String) (msgId : Nat)
  /-- edit of an existing checklist widget (`bot.edit_message_checklist`) -/
  | editChecklist (msgId : Nat)
deriving DecidableEq, Repr

/-- Is this effect a report delivery to the user? -/
def Effect.isReport : Effect → Bool
  | .sendReport _ => true
  | _ => false

/-- Is this effect an archive append? -/
def Effect.isArchive : Effect → Bool
  | .archiveAppend _ _ => true
  | _ => false

/-- Is this effect the creation of a daily checklist widget? -/
def Effect.isDailyWidget : Effect → Bool
  | .sendDailyChecklist _ => true
  | _ => false

/-- Number of report deliveries in an effect trace. -/
def countReports (es : List Effect) : Nat := (es.filter Effect.isReport).length

/-- Number of archive appends in an effect trace. -/
def countArchives (es : List Effect) : Nat := (es.filter Effect.isArchive).length

/-- Number of daily checklist widgets created in an effect trace. -/
def countDailyWidgets (es : List Effect) : Nat :=
  (es.filter Effect.isDailyWidget).length

/-- `generate_daily_report` from `bot/helpers_daily.py`, as its list of lines.
Only `done=True` tasks are listed; the synthetic onboarding task is skipped
even when done; tag sections appear only for tags with at least one done task;
if no daily task and no tag task is done the fixed "nothing completed" report
is produced (note: that emptiness test does NOT exclude the onboarding task). -/
def generateDailyReport (s : UserState) (reportDate : Nat) : List ReportLine :=
  let completedDaily := s.tasks.filter (·.done)
  let completedTags := s.tag_checklists.filterMap
    (fun p =>
      let c := p.2.tasks.filter (·.done)
      if c.isEmpty then none else some (p.1, c))
  if completedDaily.isEmpty && completedTags.isEmpty then
    [.header reportDate, .blank, .nothingDone]
  else
    [ReportLine.header reportDate, .blank]
      ++ (completedDaily.filter (fun t => t.text ≠ onboardingText)).map
          (fun t => ReportLine.taskLine t.text)
      ++ completedTags.flatMap
          (fun pc => [ReportLine.blank, .tagHeader pc.1]
            ++ pc.2.map (fun t => ReportLine.taskLine t.text))

/-- Renumbering `for idx, task in enumerate(pending, start=1): task.item_id = idx`
performed by `close_day_for_user` on carried-over tasks. -/
def renumber (tasks : List TaskItem) : List TaskItem :=
  tasks.enum.map (fun it => { it.2 with item_id := it.1 + 1 })

/-- `close_day_for_user` from `bot/helpers_daily.py`.  `computedDate` is the
value `get_user_local_date(user_state)` computes at entry (line 205), used
both for the double-close guard and as the new `last_closed_date`.  Returns
the resulting record and the remote-effect trace.  The `user_state is None` /
load-failure entry path is outside the model (the record is an argument). -/
def closeDay (s : UserState) (computedDate : Nat) : UserState × List Effect :=
  match s.date with
  | none => (s, [])
  | some closedDate =>
    if s.last_closed_date = some computedDate then (s, [])
    else
      -- update the stored date to the freshly computed one before reporting
      let s1 := if s.date ≠ some computedDate
                then saveUserState { s with date := some computedDate }
                else s
      let report := generateDailyReport s1 closedDate
      let deliver : List Effect := [.sendReport report, .archiveAppend closedDate report]
      let delDaily : List Effect :=
        match s1.checklist_message_id with
        | some m => [.deleteMessage m]
        | none => []
      let delTags : List Effect :=
        s1.tag_checklists.filterMap (fun p => p.2.checklist_message_id.map .deleteMessage)
      let pendingDaily := renumber (s1.tasks.filter (fun t => !t.done))
      let newTags := s1.tag_checklists.filterMap
        (fun p =>
          let pend := p.2.tasks.filter (fun t => !t.done)
          if pend.isEmpty then none
          else some (p.1, TagChecklistState.mk p.1 none (renumber pend)))
      let s2 := saveUserState
        { s1 with
          tasks := pendingDaily
          tag_checklists := newTags
          checklist_message_id := none
          last_closed_date := some computedDate }
      (s2, deliver ++ delDaily ++ delTags)

/-! ## Widget creation and day open (`bot/helpers_checklist.py`, `bot/helpers_daily.py`) -/

/-- `create_checklist_for_user` from `bot/helpers_checklist.py`, sequential
model.  `computedDate` is what `get_user_local_date(user_state)` returns at
this instant; `fresh` supplies the platform message id for a newly sent
widget.  In the sequential model the two defensive re-reads (`load_user_state`
before/after `send_checklist`) return the record being mutated, whose
`checklist_message_id` is still `None` in this branch, so the
"created by another request" branches collapse. -/
def createChecklistForUser (s : UserState) (computedDate : Nat) (fresh : Nat) :
    UserState × Nat × List Effect :=
  match s.checklist_message_id with
  | some m =>
    -- widget exists: refresh only if the (old) stored date is set and stale
    match s.date with
    | some old =>
      if old ≠ computedDate then
        let s := saveUserState { s with date := some computedDate }
        -- update_checklist_for_user: message id present, successful edit
        (s, fresh, [.editChecklist m])
      else (s, fresh, [])
    | none => (s, fresh, [])
  | none =>
    -- no widget yet: fix the date (stored date wins if set, line 111-120)
    let current := s.date.getD computedDate
    let s := if s.date ≠ some current
             then saveUserState { s with date := some current } else s
    -- seed the onboarding task when the task list is empty
    let s := if s.tasks.isEmpty
             then saveUserState { s with tasks := [⟨1, onboardingText, false⟩] }
             else s
    -- widget items are the not-done tasks; no items → no widget
    let items := s.tasks.filter (fun t => !t.done)
    if items.isEmpty then (s, fresh, [])
    else
      let s := saveUserState { s with checklist_message_id := some fresh }
      (s, fresh + 1, [.sendDailyChecklist fresh])

/-- `update_checklist_for_user` from `bot/helpers_checklist.py`: edit the
existing widget, or create one when no widget reference is stored.  The
stale-reference recovery path (edit failure) is not modelled — remote edits
succeed in the model. -/
def updateChecklistForUser (s : UserState) (computedDate : Nat) (fresh : Nat) :
    UserState × Nat × List Effect :=
  match s.checklist_message_id with
  | none => createChecklistForUser s computedDate fresh
  | some m => (s, fresh, [.editChecklist m])

/-- `rebuild_tag_checklist_for_user` from `bot/helpers_checklist.py`: re-send
the widget for `tag` from the tasks already stored for it (never touching the
task list) and record the new message id. -/
def rebuildTagChecklistForUser (s : UserState) (tag : String) (fresh : Nat) :
    UserState × Nat × List Effect :=
  match s.tag_checklists.find? (fun p => p.1 == tag) with
  | none => (s, fresh, [])
  | some p =>
    if p.2.tasks.isEmpty then (s, fresh, [])
    else
      let s := saveUserState
        { s with tag_checklists :=
            s.tag_checklists.map (fun q =>
              if q.1 == tag
              then (q.1, { q.2 with checklist_message_id := some fresh })
              else q) }
      (s, fresh + 1, [.sendTagChecklist tag fresh])

/-- Loop body of the tag-restoration loop at the end of
`start_new_day_for_user`: for a tag with at least one task, rebuild its
widget (threading the record, the fresh-id counter and the effect trace). -/
def rebuildStep (acc : UserState × Nat × List Effect) (tag : String) :
    UserState × Nat × List Effect :=
  match acc.1.tag_checklists.find? (fun p => p.1 == tag) with
  | some p =>
    if p.2.tasks.isEmpty then acc
    else
      let r := rebuildTagChecklistForUser acc.1 tag acc.2.1
      (r.1, r.2.1, acc.2.2 ++ r.2.2)
  | none => acc

/-- The widget-recreation tail of `start_new_day_for_user`: create the daily
checklist, then restore every non-empty tag checklist. -/
def openTail (s : UserState) (todayDate : Nat) (fresh : Nat) :
    UserState × Nat × List Effect :=
  let r1 := createChecklistForUser s todayDate fresh
  let s := r1.1
  let tags := s.tag_checklists.map Prod.fst
  let r2 := tags.foldl rebuildStep (s, r1.2.1, [])
  (r2.1, r2.2.1, r1.2.2 ++ r2.2.2)

/-- `start_new_day_for_user` from `bot/helpers_daily.py` ("Open").
`todayDate` is the user-local date computed from the clock and offset at
entry.  Note the source has NO `last_opened_date` guard: the date fields are
reassigned and every tag checklist widget is re-sent on every call; only the
daily widget creation is conditional (inside `create_checklist_for_user`). -/
def startNewDayForUser (s : UserState) (todayDate : Nat) (fresh : Nat) :
    UserState × Nat × List Effect :=
  let s := saveUserState { s with date := some todayDate, last_opened_date := some todayDate }
  let s := if s.tasks.isEmpty
           then saveUserState { s with tasks := [⟨1, onboardingText, false⟩] }
           else s
  openTail s todayDate fresh

/-- `check_and_handle_new_day` from `bot/helpers_daily.py` (periodic sweep
safety net).  `currentDate` is `get_user_local_date(user_state)` at sweep
time; the close and open steps recompute the same value from the same clock. -/
def checkAndHandleNewDay (s : UserState) (currentDate : Nat) (fresh : Nat) :
    UserState × Nat × List Effect :=
  if s.time = none then (s, fresh, [])
  else
    match s.date with
    | none =>
      -- first-time date initialisation (lines 493-499)
      (saveUserState { s with date := some currentDate,
                              last_opened_date := some currentDate,
                              last_closed_date := some currentDate },
       fresh, [])
    | some d =>
      if currentDate = d then (s, fresh, [])
      else
        let r1 := if s.last_closed_date ≠ some d
                  then closeDay s currentDate else (s, [])
        let s1 := r1.1
        if s1.last_opened_date ≠ some currentDate then
          let r2 := startNewDayForUser s1 currentDate fresh
          (r2.1, r2.2.1, r1.2 ++ r2.2.2)
        else (s1, fresh, r1.2)

/-- `set_user_time_info` from `bot/state.py`, successful-parse path.
`parsedTime` is the parsed `HH:MM` (minutes since midnight), `localDate` the
user-local date derived by `compute_local_datetime_and_offset`, and
`utcOffset` the computed offset.  `last_closed_date` is written only when it
is currently unset.  (On a parse failure the function returns `False` without
touching the record — outside the model.) -/
def setUserTimeInfo (s : UserState) (parsedTime : Nat) (localDate : Nat)
    (utcOffset : Int) : UserState :=
  saveUserState
    { s with
      time := some parsedTime
      day_end_time := some parsedTime
      timezone_offset_minutes := utcOffset
      date := some localDate
      last_closed_date :=
        match s.last_closed_date with
        | none => some localDate
        | some o => some o }

/-! ## Text normalisation and cross-checklist sync (`bot/helpers_checklist.py`) -/

/-- Split a character list into its whitespace-separated words
(Python `str.split()` with no argument); `acc` holds the reversed current
word. -/
def splitWsAux : List Char → List Char → List String
  | [], acc => if acc.isEmpty then [] else [String.mk acc.reverse]
  | c :: cs, acc =>
    if c.isWhitespace then
      if acc.isEmpty then splitWsAux cs []
      else String.mk acc.reverse :: splitWsAux cs []
    else splitWsAux cs (c :: acc)

/-- Join words with single spaces (Python `" ".join(...)`). -/
def joinWithSpaces : List String → String
  | [] => ""
  | [w] => w
  | w :: ws => w ++ " " ++ joinWithSpaces ws

/-- `normalize` from `bot/helpers_checklist.py` (renamed: Mathlib already
declares a root `normalize`): `" ".join(text.lower().strip().split())` —
lowercase, then split on whitespace runs (which also trims the ends) and
rejoin with single spaces. -/
def normalizeText (text : String) : String :=
  joinWithSpaces (splitWsAux (text.data.map Char.toLower) [])

/-- One step of `sync_task_status_by_text`'s per-task loop: when the task's
normalised text equals the key, set `done` to the new status (flagging a
change only when the flag actually flips). -/
def syncOne (key : String) (v : Bool) (t : TaskItem) : TaskItem × Bool :=
  if normalizeText t.text = key then
    if t.done ≠ v then ({ t with done := v }, true) else (t, false)
  else (t, false)

/-- `sync_task_status_by_text`'s loop over one task list; the boolean records
whether any `done` flag changed. -/
def syncList (key : String) (v : Bool) : List TaskItem → List TaskItem × Bool
  | [] => ([], false)
  | t :: ts =>
    let r1 := syncOne key v t
    let r2 := syncList key v ts
    (r1.1 :: r2.1, r1.2 || r2.2)

/-- `sync_task_status_by_text` from `bot/helpers_checklist.py`: propagate a
`done` value to every task (daily and in every tag checklist) whose normalised
text equals the normalised source text; an empty normalised source text makes
the call a no-op returning `False`. -/
def syncTaskStatusByText (s : UserState) (taskText : String) (v : Bool) :
    UserState × Bool :=
  let key := normalizeText taskText
  if key = "" then (s, false)
  else
    let daily := syncList key v s.tasks
    let tagResults := s.tag_checklists.map
      (fun p =>
        let r := syncList key v p.2.tasks
        ((p.1, { p.2 with tasks := r.1 }), r.2))
    ({ s with tasks := daily.1, tag_checklists := tagResults.map Prod.fst },
     daily.2 || tagResults.any Prod.snd)

/-! ## The checklist event handler (`handle_checklist_state_update`) -/

/-- The fields of an inbound "checklist items toggled" business message that
`handle_checklist_state_update` inspects.  `hasDone`/`hasAdded` model the
presence of the `checklist_tasks_done`/`checklist_tasks_added` payloads;
`doneChecklistMsgId`/`addedChecklistMsgId` the optional
`checklist_message.message_id` inside them; `replyToMsgId` the optional
`reply_to_message.message_id`; `serviceMsgId` the service message's own id. -/
structure ChecklistEvent where
  hasDone : Bool := false
  doneChecklistMsgId : Option Nat := none
  doneIds : List Nat := []
  notDoneIds : List Nat := []
  hasAdded : Bool := false
  addedChecklistMsgId : Option Nat := none
  replyToMsgId : Option Nat := none
  serviceMsgId : Option Nat := none
deriving DecidableEq, Repr

/-- The toggled item identifiers carried by the event (read only when the
`checklist_tasks_done` payload is present). -/
def ChecklistEvent.allIds (ev : ChecklistEvent) : List Nat :=
  if ev.hasDone then ev.doneIds ++ ev.notDoneIds else []

/-- Resolution of `original_message_id` (handler step 2): explicit widget
reference from `checklist_tasks_done`, else lookup of the toggled item ids in
the daily then the tag checklists (setting the `identified_by_item_id` flag —
note the daily branch yields the daily widget reference even when that
reference is `None`), else the `checklist_tasks_added` widget reference, else
`reply_to_message`, else the service message id.  Returns the resolved id and
the `identified_by_item_id` flag. -/
def resolveOriginalMessageId (s : UserState) (ev : ChecklistEvent) :
    Option Nat × Bool :=
  match (if ev.hasDone then ev.doneChecklistMsgId else none) with
  | some m => (some m, false)
  | none =>
    let byItem : Option Nat × Bool :=
      if ev.allIds.isEmpty then (none, false)
      else if s.tasks.any (fun t => ev.allIds.contains t.item_id) then
        (s.checklist_message_id, true)
      else
        match s.tag_checklists.find?
            (fun p => p.2.tasks.any (fun t => ev.allIds.contains t.item_id)) with
        | some p => (p.2.checklist_message_id, true)
        | none => (none, false)
    match byItem.1 with
    | some m => (some m, byItem.2)
    | none =>
      let fallback :=
        ((if ev.hasAdded then ev.addedChecklistMsgId else none)
          <|> ev.replyToMsgId) <|> ev.serviceMsgId
      (fallback, byItem.2)

/-- Which checklist an event was resolved to. -/
inductive TargetKind where
  | daily
  | tag (name : String)
deriving DecidableEq, Repr

/-- Handler step 3: match the resolved message id against the daily checklist
reference first, then the tag checklist references (in insertion order). -/
def matchTarget (s : UserState) (m : Nat) : Option TargetKind :=
  if s.checklist_message_id = some m then some .daily
  else
    match s.tag_checklists.find? (fun p => p.2.checklist_message_id = some m) with
    | some p => some (.tag p.1)
    | none => none

/-- Full event-to-checklist resolution: `original_message_id` resolution
followed by the checklist match, carrying the `identified_by_item_id` flag. -/
def resolveTarget (s : UserState) (ev : ChecklistEvent) :
    Option (TargetKind × Bool) :=
  match resolveOriginalMessageId s ev with
  | (none, _) => none
  | (some m, ided) =>
    match matchTarget s m with
    | some tk => some (tk, ided)
    | none => none

/-- The task list of the resolved target checklist (`user_state.tasks` or
`user_state.tag_checklists.get(tag).tasks`, `[]` when the tag vanished). -/
def getTargetTasks (s : UserState) : TargetKind → List TaskItem
  | .daily => s.tasks
  | .tag n =>
    match s.tag_checklists.find? (fun p => p.1 == n) with
    | some p => p.2.tasks
    | none => []

/-- Replace the element at index `i` (no-op when out of range). -/
def listModify (f : α → α) : Nat → List α → List α
  | _, [] => []
  | 0, a :: as => f a :: as
  | n + 1, a :: as => a :: listModify f n as

/-- Set the `done` flag of the task at index `i` of the target checklist. -/
def setTargetTaskDone (s : UserState) (tk : TargetKind) (i : Nat) (v : Bool) :
    UserState :=
  match tk with
  | .daily => { s with tasks := listModify (fun t => { t with done := v }) i s.tasks }
  | .tag n =>
    { s with tag_checklists := s.tag_checklists.map (fun p =>
        if p.1 == n
        then (p.1, { p.2 with tasks := listModify (fun t => { t with done := v }) i p.2.tasks })
        else p) }

/-- Handler step 5, `identified_by_item_id` variant, one toggled identifier:
find the first task with that `item_id` in the target checklist, flip its
`done` flag to `v` when needed, then (when the task was found and its text is
non-empty — Python truthiness of `task_text`) propagate `v` by text across all
checklists. -/
def identifiedStep (tk : TargetKind) (v : Bool) (acc : UserState × Bool)
    (itemId : Nat) : UserState × Bool :=
  let lst := getTargetTasks acc.1 tk
  match lst.findIdx? (fun t => t.item_id == itemId) with
  | none => acc
  | some i =>
    match lst[i]? with
    | none => acc
    | some t =>
      let acc' : UserState × Bool :=
        if t.done ≠ v then (setTargetTaskDone acc.1 tk i v, true) else acc
      if t.text ≠ "" then
        let r := syncTaskStatusByText acc'.1 t.text v
        (r.1, acc'.2 || r.2)
      else acc'

/-- Handler step 5, `identified_by_item_id` variant: process every
`marked_as_done` identifier (setting `done=True`), then every
`marked_as_not_done` identifier (setting `done=False`). -/
def identifiedPass (s : UserState) (tk : TargetKind)
    (doneIds notDoneIds : List Nat) : UserState × Bool :=
  let r1 := doneIds.foldl (identifiedStep tk true) (s, false)
  notDoneIds.foldl (identifiedStep tk false) r1

/-- Handler step 5, direct variant (target identified by an explicit widget
reference): iterate over the target checklist's tasks by position; a task
whose `item_id` is in the done set and is not yet done is flipped to done and
its text propagated; symmetrically for the not-done set (the second test
re-reads the task, which the first branch and its text-sync may have
mutated). -/
def directStep (tk : TargetKind) (doneIds notDoneIds : List Nat)
    (acc : UserState × Bool) (i : Nat) : UserState × Bool :=
  match (getTargetTasks acc.1 tk)[i]? with
  | none => acc
  | some t =>
    let acc' : UserState × Bool :=
      if doneIds.contains t.item_id && !t.done then
        let st := setTargetTaskDone acc.1 tk i true
        ((syncTaskStatusByText st t.text true).1, true)
      else acc
    match (getTargetTasks acc'.1 tk)[i]? with
    | none => acc'
    | some t2 =>
      if notDoneIds.contains t2.item_id && t2.done then
        let st := setTargetTaskDone acc'.1 tk i false
        ((syncTaskStatusByText st t2.text false).1, true)
      else acc'

/-- Handler step 5, direct variant, over all positions of the target list. -/
def directPass (s : UserState) (tk : TargetKind)
    (doneIds notDoneIds : List Nat) : UserState × Bool :=
  (List.range (getTargetTasks s tk).length).foldl
    (directStep tk doneIds notDoneIds) (s, false)

/-- `handle_checklist_state_update` from `bot/helpers_checklist.py`: resolve
the event to a checklist, apply the toggles (by stable item id, with text
propagation), and persist only when something changed.  The returned boolean
is the "state was persisted" flag (`updated`).  The function is total — the
Python body is wrapped in a catch-all `try/except`, so nothing propagates to
the caller. -/
def handleChecklistStateUpdate (s : UserState) (ev : ChecklistEvent) :
    UserState × Bool :=
  if !ev.hasDone && !ev.hasAdded then (s, false)
  else
    match resolveTarget s ev with
    | none => (s, false)
    | some (tk, ided) =>
      let doneIds := if ev.hasDone then ev.doneIds else []
      let notDoneIds := if ev.hasDone then ev.notDoneIds else []
      let r := if ided then identifiedPass s tk doneIds notDoneIds
               else directPass s tk doneIds notDoneIds
      if r.2 then (saveUserState r.1, true) else (r.1, false)

/-! ## Pending-task workflow (`bot/helpers_pending.py`) -/

/-- `max([t.item_id for t in tasks], default=0)`. -/
def maxItemId (tasks : List TaskItem) : Nat :=
  tasks.foldl (fun m t => max m t.item_id) 0

/-- `finalize_task_without_tag` from `bot/helpers_pending.py`: append the
pending text as a new daily task with the next item id, refresh the widget,
delete the workflow messages, and clear every pending field.  The entry guard
is Python truthiness (`if not user_state.pending_task_text: return`), so an
empty pending text is also a no-op. -/
def finalizeTaskWithoutTag (s : UserState) (computedDate : Nat) (fresh : Nat) :
    UserState × Nat × List Effect :=
  match s.pending_task_text with
  | none => (s, fresh, [])
  | some txt =>
    if txt = "" then (s, fresh, []) else
    let nextId := maxItemId s.tasks + 1
    let s := saveUserState { s with tasks := s.tasks ++ [⟨nextId, txt, false⟩] }
    let r := updateChecklistForUser s computedDate fresh
    let s := saveUserState r.1
    let deletions : List Effect :=
      ((s.pending_task_message_id.toList) ++ s.pending_service_message_ids).map
        .deleteMessage
    let s := saveUserState
      { s with
        pending_task_text := none
        pending_task_message_id := none
        pending_service_message_ids := []
        awaiting_tag := false
        pending_confirm_job_id := none }
    (s, r.2.1, r.2.2 ++ deletions)

/-- `auto_skip_pending_task` from `bot/helpers_pending.py` (the 5-minute
timeout job), given the loaded record: a guarded no-op when no pending task
text remains (Python truthiness — `None` or empty), otherwise
`finalize_task_without_tag`. -/
def autoSkipPendingTask (s : UserState) (computedDate : Nat) (fresh : Nat) :
    UserState × Nat × List Effect :=
  match s.pending_task_text with
  | none => (s, fresh, [])
  | some txt =>
    if txt = "" then (s, fresh, [])
    else finalizeTaskWithoutTag s computedDate fresh

/-! ## Lemmas about the persist-time cleanup -/

theorem memOfGetElem {α : Type} {l : List α} {i : Nat} {a : α} (h : l[i]? = some a) :
    a ∈ l := by
  obtain ⟨hi, rfl⟩ := List.getElem?_eq_some.1 h
  exact List.getElem_mem hi

theorem dedupByIdAux_sublist (seen : List Nat) (l : List TaskItem) :
    List.Sublist (dedupByIdAux seen l) l := by
  induction l generalizing seen with
  | nil => simp [dedupByIdAux]
  | cons t ts ih =>
    simp only [dedupByIdAux]
    split
    · exact (ih seen).trans (List.sublist_cons_self t ts)
    · exact (ih _).cons₂ t

theorem dedupByTextAux_sublist (seen : List String) (l : List TaskItem) :
    List.Sublist (dedupByTextAux seen l) l := by
  induction l generalizing seen with
  | nil => simp [dedupByTextAux]
  | cons t ts ih =>
    simp only [dedupByTextAux]
    split
    · exact (ih seen).trans (List.sublist_cons_self t ts)
    · exact (ih _).cons₂ t

theorem mem_dedupByIdAux_not_seen {seen : List Nat} {l : List TaskItem} {t : TaskItem}
    (h : t ∈ dedupByIdAux seen l) : t.item_id ∉ seen := by
  induction l generalizing seen with
  | nil => simp [dedupByIdAux] at h
  | cons a as ih =>
    simp only [dedupByIdAux] at h
    split at h
    · exact ih h
    · rcases List.mem_cons.1 h with rfl | h'
      · rename_i hc
        intro hmem
        simp at hc
        exact hc hmem
      · intro hmem
        exact (ih h') (List.mem_cons_of_mem _ hmem)

theorem mem_dedupByTextAux_not_seen {seen : List String} {l : List TaskItem} {t : TaskItem}
    (h : t ∈ dedupByTextAux seen l) : stripLower t.text ∉ seen := by
  induction l generalizing seen with
  | nil => simp [dedupByTextAux] at h
  | cons a as ih =>
    simp only [dedupByTextAux] at h
    split at h
    · exact ih h
    · rcases List.mem_cons.1 h with rfl | h'
      · rename_i hc
        intro hmem
        simp at hc
        exact hc hmem
      · intro hmem
        exact (ih h') (List.mem_cons_of_mem _ hmem)

theorem dedupByIdAux_pairwise (seen : List Nat) (l : List TaskItem) :
    (dedupByIdAux seen l).Pairwise (fun a b => a.item_id ≠ b.item_id) := by
  induction l generalizing seen with
  | nil => simp [dedupByIdAux]
  | cons a as ih =>
    simp only [dedupByIdAux]
    split
    · exact ih seen
    · refine List.Pairwise.cons ?_ (ih _)
      intro b hb
      have hnot := mem_dedupByIdAux_not_seen hb
      intro he
      exact hnot (he ▸ List.mem_cons_self _ _)

theorem dedupByTextAux_pairwise (seen : List String) (l : List TaskItem) :
    (dedupByTextAux seen l).Pairwise
      (fun a b => stripLower a.text ≠ stripLower b.text) := by
  induction l generalizing seen with
  | nil => simp [dedupByTextAux]
  | cons a as ih =>
    simp only [dedupByTextAux]
    split
    · exact ih seen
    · refine List.Pairwise.cons ?_ (ih _)
      intro b hb
      have hnot := mem_dedupByTextAux_not_seen hb
      intro he
      exact hnot (he ▸ List.mem_cons_self _ _)

theorem cleanTasksList_sublist (l : List TaskItem) :
    List.Sublist (cleanTasksList l) l := by
  unfold cleanTasksList
  split
  · exact List.Sublist.refl l
  · exact (dedupByTextAux_sublist [] _).trans (dedupByIdAux_sublist [] l)

theorem cleanTasksList_pairwise_id (l : List TaskItem) :
    (cleanTasksList l).Pairwise (fun a b => a.item_id ≠ b.item_id) := by
  unfold cleanTasksList
  split
  · rename_i h
    simp [List.isEmpty_iff.1 h]
  · exact (dedupByIdAux_pairwise [] l).sublist (dedupByTextAux_sublist [] _)

theorem cleanTasksList_pairwise_text (l : List TaskItem) :
    (cleanTasksList l).Pairwise (fun a b => stripLower a.text ≠ stripLower b.text) := by
  unfold cleanTasksList
  split
  · rename_i h
    simp [List.isEmpty_iff.1 h]
  · exact dedupByTextAux_pairwise [] _

theorem dedupByIdAux_eq_self {seen : List Nat} {l : List TaskItem}
    (h1 : l.Pairwise (fun a b => a.item_id ≠ b.item_id))
    (h2 : ∀ t ∈ l, t.item_id ∉ seen) : dedupByIdAux seen l = l := by
  induction l generalizing seen with
  | nil => simp [dedupByIdAux]
  | cons a as ih =>
    have ha : a.item_id ∉ seen := h2 a (List.mem_cons_self _ _)
    simp only [dedupByIdAux]
    rw [if_neg (by simpa using ha)]
    congr 1
    refine ih (List.Pairwise.of_cons h1) ?_
    intro t ht
    simp only [List.mem_cons, not_or]
    refine ⟨?_, h2 t (List.mem_cons_of_mem _ ht)⟩
    exact fun he => (List.pairwise_cons.1 h1).1 t ht he.symm

theorem dedupByTextAux_eq_self {seen : List String} {l : List TaskItem}
    (h1 : l.Pairwise (fun a b => stripLower a.text ≠ stripLower b.text))
    (h2 : ∀ t ∈ l, stripLower t.text ∉ seen) : dedupByTextAux seen l = l := by
  induction l generalizing seen with
  | nil => simp [dedupByTextAux]
  | cons a as ih =>
    have ha : stripLower a.text ∉ seen := h2 a (List.mem_cons_self _ _)
    simp only [dedupByTextAux]
    rw [if_neg (by simpa using ha)]
    congr 1
    refine ih (List.Pairwise.of_cons h1) ?_
    intro t ht
    simp only [List.mem_cons, not_or]
    refine ⟨?_, h2 t (List.mem_cons_of_mem _ ht)⟩
    exact fun he => (List.pairwise_cons.1 h1).1 t ht he.symm

theorem cleanTasksList_eq_self {l : List TaskItem}
    (h1 : l.Pairwise (fun a b => a.item_id ≠ b.item_id))
    (h2 : l.Pairwise (fun a b => stripLower a.text ≠ stripLower b.text)) :
    cleanTasksList l = l := by
  unfold cleanTasksList
  split
  · rfl
  · rw [dedupByIdAux_eq_self h1 (by simp), dedupByTextAux_eq_self h2 (by simp)]

theorem cleanTasksList_idem (l : List TaskItem) :
    cleanTasksList (cleanTasksList l) = cleanTasksList l :=
  cleanTasksList_eq_self (cleanTasksList_pairwise_id l) (cleanTasksList_pairwise_text l)

theorem cleanTasksList_cons (a : TaskItem) (l : List TaskItem) :
    cleanTasksList (a :: l) =
      a :: dedupByTextAux [stripLower a.text] (dedupByIdAux [a.item_id] l) := by
  simp [cleanTasksList, dedupByIdAux, dedupByTextAux]

theorem cleanTasksList_ne_nil {l : List TaskItem} (h : l ≠ []) :
    cleanTasksList l ≠ [] := by
  match l with
  | [] => exact absurd rfl h
  | a :: as => simp [cleanTasksList_cons]

theorem dedupByIdAux_append {seen : List Nat} {l : List TaskItem} {t : TaskItem}
    (h : ∀ u ∈ l, u.item_id ≠ t.item_id) (h2 : t.item_id ∉ seen) :
    dedupByIdAux seen (l ++ [t]) = dedupByIdAux seen l ++ [t] := by
  induction l generalizing seen with
  | nil => simp [dedupByIdAux, h2, List.elem_iff]
  | cons a as ih =>
    have heq : as.append [t] = as ++ [t] := rfl
    simp only [List.cons_append, dedupByIdAux]
    split
    · exact ih (fun u hu => h u (List.mem_cons_of_mem _ hu)) h2
    · rw [heq, ih (fun u hu => h u (List.mem_cons_of_mem _ hu))
        (by simp only [List.mem_cons, not_or]
            exact ⟨fun he => h a (List.mem_cons_self _ _) he.symm, h2⟩),
        List.cons_append]

theorem dedupByTextAux_append {seen : List String} {l : List TaskItem} {t : TaskItem}
    (h : ∀ u ∈ l, stripLower u.text ≠ stripLower t.text)
    (h2 : stripLower t.text ∉ seen) :
    dedupByTextAux seen (l ++ [t]) = dedupByTextAux seen l ++ [t] := by
  induction l generalizing seen with
  | nil => simp [dedupByTextAux, h2, List.elem_iff]
  | cons a as ih =>
    have heq : as.append [t] = as ++ [t] := rfl
    simp only [List.cons_append, dedupByTextAux]
    split
    · exact ih (fun u hu => h u (List.mem_cons_of_mem _ hu)) h2
    · rw [heq, ih (fun u hu => h u (List.mem_cons_of_mem _ hu))
        (by simp only [List.mem_cons, not_or]
            exact ⟨fun he => h a (List.mem_cons_self _ _) he.symm, h2⟩),
        List.cons_append]

theorem cleanTasksList_append_singleton {l : List TaskItem} {t : TaskItem}
    (h1 : ∀ u ∈ l, u.item_id ≠ t.item_id)
    (h2 : ∀ u ∈ l, stripLower u.text ≠ stripLower t.text) :
    cleanTasksList (l ++ [t]) = cleanTasksList l ++ [t] := by
  match l with
  | [] => simp [cleanTasksList, dedupByIdAux, dedupByTextAux]
  | a :: as =>
    show cleanTasksList ((a :: as) ++ [t]) = _
    unfold cleanTasksList
    rw [if_neg (by simp), if_neg (by simp)]
    rw [dedupByIdAux_append h1 (by simp)]
    rw [dedupByTextAux_append ?_ (by simp)]
    intro u hu
    exact h2 u ((dedupByIdAux_sublist [] (a :: as)).mem hu)

theorem foldlMax_ge_init (l : List TaskItem) (n : Nat) :
    n ≤ l.foldl (fun m u => max m u.item_id) n := by
  induction l generalizing n with
  | nil => simp
  | cons a as ih =>
    simp only [List.foldl_cons]
    exact le_trans (le_max_left _ _) (ih (max n a.item_id))

theorem le_maxItemId {l : List TaskItem} {t : TaskItem} (h : t ∈ l) :
    t.item_id ≤ maxItemId l := by
  unfold maxItemId
  have aux : ∀ (l : List TaskItem) (n : Nat), t ∈ l →
      t.item_id ≤ l.foldl (fun m u => max m u.item_id) n := by
    intro l
    induction l with
    | nil => intro n hn; simp at hn
    | cons a as ih =>
      intro n hn
      simp only [List.foldl_cons]
      rcases List.mem_cons.1 hn with rfl | h'
      · exact le_trans (le_max_right n t.item_id) (foldlMax_ge_init as _)
      · exact ih _ h'
  exact aux l 0 h

/-! ## Effect-counting lemmas -/

theorem countReports_append (a b : List Effect) :
    countReports (a ++ b) = countReports a + countReports b := by
  simp [countReports, List.filter_append]

theorem countArchives_append (a b : List Effect) :
    countArchives (a ++ b) = countArchives a + countArchives b := by
  simp [countArchives, List.filter_append]

theorem countDailyWidgets_append (a b : List Effect) :
    countDailyWidgets (a ++ b) = countDailyWidgets a + countDailyWidgets b := by
  simp [countDailyWidgets, List.filter_append]

theorem countReports_eq_zero {es : List Effect} (h : ∀ e ∈ es, e.isReport = false) :
    countReports es = 0 := by
  have : es.filter Effect.isReport = [] :=
    List.filter_eq_nil_iff.2 (by intro a ha; simp [h a ha])
  simp [countReports, this]

theorem countArchives_eq_zero {es : List Effect} (h : ∀ e ∈ es, e.isArchive = false) :
    countArchives es = 0 := by
  have : es.filter Effect.isArchive = [] :=
    List.filter_eq_nil_iff.2 (by intro a ha; simp [h a ha])
  simp [countArchives, this]

theorem countDailyWidgets_eq_zero {es : List Effect}
    (h : ∀ e ∈ es, e.isDailyWidget = false) : countDailyWidgets es = 0 := by
  have : es.filter Effect.isDailyWidget = [] :=
    List.filter_eq_nil_iff.2 (by intro a ha; simp [h a ha])
  simp [countDailyWidgets, this]

/-- The widget-teardown effects of `closeDay` are all message deletions. -/
theorem closeDay_deletes_are_deletes (l : List (String × TagChecklistState)) :
    ∀ e ∈ l.filterMap (fun p => p.2.checklist_message_id.map Effect.deleteMessage),
      e.isReport = false ∧ e.isArchive = false ∧ e.isDailyWidget = false := by
  intro e he
  obtain ⟨p, _, hp⟩ := List.mem_filterMap.1 he
  obtain ⟨m, _, rfl⟩ := Option.map_eq_some'.1 hp
  exact ⟨rfl, rfl, rfl⟩

/-! ## Day-close lemmas -/

/-- Double-close guard: when the day is already closed for the computed date,
`close_day_for_user` returns before any effect or mutation. -/
theorem closeDay_noop {s : UserState} {c : Nat} (h : s.last_closed_date = some c) :
    closeDay s c = (s, []) := by
  unfold closeDay
  cases hd : s.date with
  | none => rfl
  | some d => simp [h]

/-- `close_day_for_user` when the stored date already equals the computed
date: the explicit result record and effect trace. -/
theorem closeDay_spec_current {s : UserState} {c : Nat} (hd : s.date = some c)
    (hne : s.last_closed_date ≠ some c) :
    closeDay s c =
      (saveUserState
        { s with
          tasks := renumber (s.tasks.filter (fun t => !t.done))
          tag_checklists := s.tag_checklists.filterMap
            (fun p =>
              let pend := p.2.tasks.filter (fun t => !t.done)
              if pend.isEmpty then none
              else some (p.1, TagChecklistState.mk p.1 none (renumber pend)))
          checklist_message_id := none
          last_closed_date := some c },
       Effect.sendReport (generateDailyReport s c)
         :: Effect.archiveAppend c (generateDailyReport s c)
         :: ((match s.checklist_message_id with
              | some m => [Effect.deleteMessage m]
              | none => [])
             ++ s.tag_checklists.filterMap
                  (fun p => p.2.checklist_message_id.map Effect.deleteMessage))) := by
  unfold closeDay
  rw [hd]
  simp only [hne, if_false, ne_eq, not_true_eq_false, if_neg, not_not]
  simp [hd]

/-- In the closing branch, the effect trace starts with exactly one report
delivery and one archive append, followed by message deletions only, and the
result record carries `last_closed_date = computedDate`. -/
theorem closeDay_shape {s : UserState} {c d : Nat} (hd : s.date = some d)
    (hne : s.last_closed_date ≠ some c) :
    ∃ r rest, (closeDay s c).2 = .sendReport r :: .archiveAppend d r :: rest ∧
      (∀ e ∈ rest, e.isReport = false ∧ e.isArchive = false) ∧
      (closeDay s c).1.last_closed_date = some c ∧
      (closeDay s c).1.date = some c := by
  unfold closeDay
  rw [hd]
  simp only [hne, if_false]
  refine ⟨_, _, rfl, ?_, rfl, ?_⟩
  · intro e he
    rcases List.mem_append.1 he with h1 | h2
    · revert h1
      split
      · intro h1
        rcases List.mem_singleton.1 h1 with rfl
        exact ⟨rfl, rfl⟩
      · intro h1
        simp at h1
    · exact ⟨(closeDay_deletes_are_deletes _ e h2).1,
             (closeDay_deletes_are_deletes _ e h2).2.1⟩
  · split
    · simp
    · rename_i h
      rw [hd, not_not.1 h]
      simp

/-! ## Claim C1 -/

/-- C1. Close is idempotent per computed local date: when
`last_closed_date` already equals the computed local date, `close_day_for_user`
returns with no report delivery, no archive append and the record unchanged;
and for a closeable day (a stored date exists and the computed date is not yet
closed) two successive calls with the same computed date deliver exactly one
report, append exactly once to the archive, and the second call is a pure
no-op on the record. -/
theorem claim_C1_close_idempotent (s : UserState) (c : Nat) :
    (s.last_closed_date = some c → closeDay s c = (s, [])) ∧
    (∀ d, s.date = some d → s.last_closed_date ≠ some c →
      countReports (closeDay s c).2 = 1 ∧
      countArchives (closeDay s c).2 = 1 ∧
      closeDay (closeDay s c).1 c = ((closeDay s c).1, [])) := by
  constructor
  · exact fun h => closeDay_noop h
  · intro d hd hne
    obtain ⟨r, rest, hsh, hrest, hlast, _⟩ := closeDay_shape hd hne
    refine ⟨?_, ?_, closeDay_noop hlast⟩
    · rw [hsh]
      have : rest.filter Effect.isReport = [] :=
        List.filter_eq_nil_iff.2 (by intro a ha; simp [(hrest a ha).1])
      simp [countReports, Effect.isReport, this]
    · rw [hsh]
      have : rest.filter Effect.isArchive = [] :=
        List.filter_eq_nil_iff.2 (by intro a ha; simp [(hrest a ha).2])
      simp [countArchives, Effect.isArchive, this]

/-- Witness for C1 at concrete records: one already-closed record (pure
no-op) and one closeable record (one report, one archive, idempotent second
call). -/
theorem claim_C1_close_idempotent_witness :
    (closeDay ({ date := some 5, last_closed_date := some 5 } : UserState) 5
        = (({ date := some 5, last_closed_date := some 5 } : UserState), [])) ∧
    countReports (closeDay ({ date := some 5, tasks := [⟨1, "a", true⟩] } : UserState) 5).2 = 1 ∧
    countArchives (closeDay ({ date := some 5, tasks := [⟨1, "a", true⟩] } : UserState) 5).2 = 1 ∧
    closeDay (closeDay ({ date := some 5, tasks := [⟨1, "a", true⟩] } : UserState) 5).1 5
        = ((closeDay ({ date := some 5, tasks := [⟨1, "a", true⟩] } : UserState) 5).1, []) :=
  ⟨(claim_C1_close_idempotent _ 5).1 rfl,
   ((claim_C1_close_idempotent _ 5).2 5 rfl (by decide)).1,
   ((claim_C1_close_idempotent _ 5).2 5 rfl (by decide)).2.1,
   ((claim_C1_close_idempotent _ 5).2 5 rfl (by decide)).2.2⟩

/-! ## Field-preservation lemmas for the rollover functions -/

@[simp] theorem saveUserState_pending_task_message_id (s : UserState) :
    (saveUserState s).pending_task_message_id = s.pending_task_message_id := rfl

@[simp] theorem saveUserState_pending_service_message_ids (s : UserState) :
    (saveUserState s).pending_service_message_ids = s.pending_service_message_ids := rfl

@[simp] theorem saveUserState_pending_confirm_job_id (s : UserState) :
    (saveUserState s).pending_confirm_job_id = s.pending_confirm_job_id := rfl

theorem closeDay_none {s : UserState} (c : Nat) (h : s.date = none) :
    closeDay s c = (s, []) := by
  unfold closeDay
  rw [h]

/-- `close_day_for_user` either leaves `last_closed_date` alone (guard paths)
or stamps it with the computed date. -/
theorem closeDay_last_closed_or (s : UserState) (c : Nat) :
    (closeDay s c).1.last_closed_date = s.last_closed_date ∨
    (closeDay s c).1.last_closed_date = some c := by
  cases hd : s.date with
  | none =>
    rw [closeDay_none c hd]
    exact Or.inl rfl
  | some d =>
    by_cases hc : s.last_closed_date = some c
    · rw [closeDay_noop hc]
      exact Or.inl rfl
    · obtain ⟨_, _, _, _, hlast, _⟩ := closeDay_shape hd hc
      exact Or.inr hlast

/-- `create_checklist_for_user` never touches the rollover markers or the
pending-task fields. -/
theorem createChecklistForUser_preserves (s : UserState) (cd f : Nat) :
    (createChecklistForUser s cd f).1.last_closed_date = s.last_closed_date ∧
    (createChecklistForUser s cd f).1.last_opened_date = s.last_opened_date ∧
    (createChecklistForUser s cd f).1.pending_task_text = s.pending_task_text ∧
    (createChecklistForUser s cd f).1.awaiting_tag = s.awaiting_tag ∧
    (createChecklistForUser s cd f).1.pending_task_message_id = s.pending_task_message_id ∧
    (createChecklistForUser s cd f).1.pending_service_message_ids = s.pending_service_message_ids ∧
    (createChecklistForUser s cd f).1.pending_confirm_job_id = s.pending_confirm_job_id := by
  unfold createChecklistForUser
  split
  · split
    · split <;> simp
    · simp
  · simp only
    split <;> split <;> split <;> simp

/-- `rebuild_tag_checklist_for_user` only rewires a tag widget reference. -/
theorem rebuildTagChecklistForUser_preserves (s : UserState) (tag : String) (f : Nat) :
    (rebuildTagChecklistForUser s tag f).1.last_closed_date = s.last_closed_date ∧
    (rebuildTagChecklistForUser s tag f).1.last_opened_date = s.last_opened_date ∧
    (rebuildTagChecklistForUser s tag f).1.date = s.date ∧
    (rebuildTagChecklistForUser s tag f).1.checklist_message_id = s.checklist_message_id := by
  unfold rebuildTagChecklistForUser
  split
  · simp
  · split <;> simp

/-- The tag-restoration loop of `start_new_day_for_user` preserves the daily
fields and the rollover markers. -/
theorem foldl_rebuildStep_preserves (tags : List String)
    (acc : UserState × Nat × List Effect) :
    (tags.foldl rebuildStep acc).1.last_closed_date = acc.1.last_closed_date ∧
    (tags.foldl rebuildStep acc).1.last_opened_date = acc.1.last_opened_date ∧
    (tags.foldl rebuildStep acc).1.date = acc.1.date ∧
    (tags.foldl rebuildStep acc).1.checklist_message_id = acc.1.checklist_message_id := by
  induction tags generalizing acc with
  | nil => exact ⟨rfl, rfl, rfl, rfl⟩
  | cons tg tgs ih =>
    simp only [List.foldl_cons]
    have hstep : (rebuildStep acc tg).1.last_closed_date = acc.1.last_closed_date ∧
        (rebuildStep acc tg).1.last_opened_date = acc.1.last_opened_date ∧
        (rebuildStep acc tg).1.date = acc.1.date ∧
        (rebuildStep acc tg).1.checklist_message_id = acc.1.checklist_message_id := by
      unfold rebuildStep
      split
      · split
        · exact ⟨rfl, rfl, rfl, rfl⟩
        · exact rebuildTagChecklistForUser_preserves acc.1 _ _
      · exact ⟨rfl, rfl, rfl, rfl⟩
    obtain ⟨a1, a2, a3, a4⟩ := ih (rebuildStep acc tg)
    exact ⟨a1.trans hstep.1, a2.trans hstep.2.1, a3.trans hstep.2.2.1,
           a4.trans hstep.2.2.2⟩

/-- `start_new_day_for_user` never writes `last_closed_date`. -/
theorem startNewDayForUser_last_closed (s : UserState) (d f : Nat) :
    (startNewDayForUser s d f).1.last_closed_date = s.last_closed_date := by
  unfold startNewDayForUser openTail
  simp only
  rw [(foldl_rebuildStep_preserves _ _).1]
  rw [(createChecklistForUser_preserves _ _ _).1]
  split <;> simp

/-- The sweep either leaves `last_closed_date` alone or writes the computed
current date (directly at first-date initialisation, or through the close). -/
theorem checkAndHandleNewDay_last_closed_or (s : UserState) (c f : Nat) :
    (checkAndHandleNewDay s c f).1.last_closed_date = s.last_closed_date ∨
    (checkAndHandleNewDay s c f).1.last_closed_date = some c := by
  unfold checkAndHandleNewDay
  split
  · exact Or.inl rfl
  · split
    · exact Or.inr (by simp)
    · split
      · exact Or.inl rfl
      · simp only
        split <;> split <;>
          first
            | (rw [startNewDayForUser_last_closed]
               exact closeDay_last_closed_or s c)
            | exact closeDay_last_closed_or s c
            | (rw [startNewDayForUser_last_closed]
               exact Or.inl rfl)
            | exact Or.inl rfl

/-! ## Claim C2 -/

/-- C2 counterexample. `close_day_for_user` is NOT monotone on
`last_closed_date` as stated: on a record whose day was closed for date 13
(e.g. after a timezone change moved the computed local date backwards to 12),
the closing branch overwrites `last_closed_date` with the EARLIER computed
date 12. -/
theorem claim_C2_counterexample :
    ({ date := some 13, last_closed_date := some 13 } : UserState).last_closed_date
        = some 13 ∧
    (closeDay ({ date := some 13, last_closed_date := some 13 } : UserState) 12).1.last_closed_date
        = some 12 ∧
    (12 : Nat) < 13 := ⟨rfl, by decide, by decide⟩

/-- C2 (amended). The writers of `last_closed_date` are non-decreasing
provided the computed local date has not moved backwards past the stored
value: `close_day_for_user` and the sweep's first-date initialisation only
write the computed current date, so they are monotone whenever that date is
`≥` the stored `last_closed_date`; `set_user_time_info` writes only when the
field is unset and hence is unconditionally non-decreasing. -/
theorem claim_C2_last_closed_monotone_amended (s : UserState) (c f pt ld : Nat)
    (off : Int) :
    ((∀ o, s.last_closed_date = some o → o ≤ c) →
      ∀ o n, s.last_closed_date = some o →
        (closeDay s c).1.last_closed_date = some n → o ≤ n) ∧
    (∀ o n, s.last_closed_date = some o →
      (setUserTimeInfo s pt ld off).last_closed_date = some n → o ≤ n) ∧
    ((∀ o, s.last_closed_date = some o → o ≤ c) →
      ∀ o n, s.last_closed_date = some o →
        (checkAndHandleNewDay s c f).1.last_closed_date = some n → o ≤ n) := by
  refine ⟨?_, ?_, ?_⟩
  · intro hle o n ho hn
    rcases closeDay_last_closed_or s c with h | h
    · rw [h, ho] at hn
      cases hn
      exact le_refl _
    · rw [h] at hn
      cases hn
      exact hle o ho
  · intro o n ho hn
    simp [setUserTimeInfo, ho] at hn
    exact le_of_eq hn
  · intro hle o n ho hn
    rcases checkAndHandleNewDay_last_closed_or s c f with h | h
    · rw [h, ho] at hn
      cases hn
      exact le_refl _
    · rw [h] at hn
      cases hn
      exact hle o ho

/-- Witness for the amended C2 at concrete records: a close that advances
3 → 7, a time-set that leaves the already-set value 3, and a sweep run that
leaves 3 in place. -/
theorem claim_C2_last_closed_monotone_amended_witness :
    (3 : Nat) ≤ 7 ∧ (3 : Nat) ≤ 3 ∧ (3 : Nat) ≤ 3 :=
  ⟨(claim_C2_last_closed_monotone_amended
      ({ date := some 3, last_closed_date := some 3 } : UserState) 7 0 0 0 0).1
      (by intro o ho; simp at ho; omega) 3 7 rfl (by decide),
   (claim_C2_last_closed_monotone_amended
      ({ date := some 3, last_closed_date := some 3 } : UserState) 7 0 0 9 0).2.1
      3 3 rfl (by decide),
   (claim_C2_last_closed_monotone_amended
      ({ date := some 3, last_closed_date := some 3, time := some 600 } : UserState) 7 0 0 0 0).2.2
      (by intro o ho; simp at ho; omega) 3 3 rfl (by decide)⟩

/-! ## Day-open lemmas -/

/-- `create_checklist_for_user` is a pure no-op when a widget exists and the
stored date is current. -/
theorem createChecklistForUser_noop_existing {s : UserState} {cd f m : Nat}
    (hm : s.checklist_message_id = some m) (hd : s.date = some cd) :
    createChecklistForUser s cd f = (s, f, []) := by
  unfold createChecklistForUser
  rw [hm, hd]
  simp

/-- `create_checklist_for_user` is a pure no-op when no widget exists, the
stored date is current, the task list is non-empty but every task is done
(no items → no widget sent). -/
theorem createChecklistForUser_noop_nondone_empty {s : UserState} {cd f : Nat}
    (hm : s.checklist_message_id = none) (hd : s.date = some cd)
    (ht : s.tasks ≠ [])
    (hemp : (s.tasks.filter (fun t => !t.done)).isEmpty) :
    createChecklistForUser s cd f = (s, f, []) := by
  unfold createChecklistForUser
  rw [hm]
  simp only
  rw [hd]
  simp [List.isEmpty_iff, ht, hemp, List.isEmpty_iff.1 hemp]

/-- `create_checklist_for_user` when it actually sends the widget: no widget
yet, current stored date, a non-empty task list with at least one not-done
task. -/
theorem createChecklistForUser_creating {s : UserState} {cd f : Nat}
    (hm : s.checklist_message_id = none) (hd : s.date = some cd)
    (ht : s.tasks ≠ [])
    (hne : ¬(s.tasks.filter (fun t => !t.done)).isEmpty = true) :
    createChecklistForUser s cd f =
      (saveUserState { s with checklist_message_id := some f }, f + 1,
       [Effect.sendDailyChecklist f]) := by
  unfold createChecklistForUser
  rw [hm]
  simp only
  rw [hd]
  simp [List.isEmpty_iff, ht, hne, hd]

/-- Rebuilding a tag widget leaves a clean daily task list untouched. -/
theorem rebuildTagChecklistForUser_tasks {s : UserState} (tag : String) (f : Nat)
    (hclean : cleanTasksList s.tasks = s.tasks) :
    (rebuildTagChecklistForUser s tag f).1.tasks = s.tasks ∧
    cleanTasksList (rebuildTagChecklistForUser s tag f).1.tasks
      = (rebuildTagChecklistForUser s tag f).1.tasks := by
  unfold rebuildTagChecklistForUser
  split
  · exact ⟨rfl, hclean⟩
  · split
    · exact ⟨rfl, hclean⟩
    · constructor <;> simp [hclean]

/-- Rebuilding a tag widget never creates a daily widget. -/
theorem rebuildTagChecklistForUser_no_daily (s : UserState) (tag : String) (f : Nat) :
    countDailyWidgets (rebuildTagChecklistForUser s tag f).2.2 = 0 := by
  unfold rebuildTagChecklistForUser
  split
  · simp [countDailyWidgets]
  · split <;> simp [countDailyWidgets, Effect.isDailyWidget]

/-- The tag-restoration loop leaves a clean daily task list untouched. -/
theorem foldl_rebuildStep_tasks (tags : List String) (acc : UserState × Nat × List Effect)
    (hclean : cleanTasksList acc.1.tasks = acc.1.tasks) :
    (tags.foldl rebuildStep acc).1.tasks = acc.1.tasks ∧
    cleanTasksList (tags.foldl rebuildStep acc).1.tasks
      = (tags.foldl rebuildStep acc).1.tasks := by
  induction tags generalizing acc with
  | nil => exact ⟨rfl, hclean⟩
  | cons tg tgs ih =>
    simp only [List.foldl_cons]
    have hstep : (rebuildStep acc tg).1.tasks = acc.1.tasks ∧
        cleanTasksList (rebuildStep acc tg).1.tasks = (rebuildStep acc tg).1.tasks := by
      unfold rebuildStep
      split
      · split
        · exact ⟨rfl, hclean⟩
        · exact rebuildTagChecklistForUser_tasks _ _ hclean
      · exact ⟨rfl, hclean⟩
    obtain ⟨a1, a2⟩ := ih (rebuildStep acc tg) hstep.2
    exact ⟨a1.trans hstep.1, a2⟩

/-- The tag-restoration loop never creates a daily widget. -/
theorem foldl_rebuildStep_daily_count (tags : List String)
    (acc : UserState × Nat × List Effect) :
    countDailyWidgets (tags.foldl rebuildStep acc).2.2 = countDailyWidgets acc.2.2 := by
  induction tags generalizing acc with
  | nil => rfl
  | cons tg tgs ih =>
    simp only [List.foldl_cons]
    rw [ih]
    unfold rebuildStep
    split
    · split
      · rfl
      · simp [countDailyWidgets_append, rebuildTagChecklistForUser_no_daily]
    · rfl

/-- Postconditions of `openTail` for a record with a current date, a
non-empty clean task list: the date fields and the task list survive, at most
one daily widget is sent, and when no daily widget reference results, all
tasks are done. -/
theorem openTail_facts {sB : UserState} {d f : Nat}
    (hBdate : sB.date = some d) (hBne : sB.tasks ≠ [])
    (hBclean : cleanTasksList sB.tasks = sB.tasks) :
    (openTail sB d f).1.date = some d ∧
    (openTail sB d f).1.last_opened_date = sB.last_opened_date ∧
    (openTail sB d f).1.tasks = sB.tasks ∧
    cleanTasksList (openTail sB d f).1.tasks = (openTail sB d f).1.tasks ∧
    ((openTail sB d f).1.checklist_message_id = none →
      ((openTail sB d f).1.tasks.filter (fun t => !t.done)).isEmpty) ∧
    (∀ m, sB.checklist_message_id = some m →
      (openTail sB d f).1.checklist_message_id = some m) ∧
    countDailyWidgets (openTail sB d f).2.2 ≤ 1 := by
  unfold openTail
  simp only
  cases hm : sB.checklist_message_id with
  | some m =>
    rw [createChecklistForUser_noop_existing hm hBdate]
    refine ⟨?_, ?_, ?_, ?_, ?_, ?_, ?_⟩
    · rw [(foldl_rebuildStep_preserves _ _).2.2.1]
      exact hBdate
    · rw [(foldl_rebuildStep_preserves _ _).2.1]
    · rw [(foldl_rebuildStep_tasks _ _ hBclean).1]
    · exact (foldl_rebuildStep_tasks _ _ hBclean).2
    · intro hnone
      rw [(foldl_rebuildStep_preserves _ _).2.2.2] at hnone
      simp [hm] at hnone
    · intro m' hm'
      rw [(foldl_rebuildStep_preserves _ _).2.2.2]
      exact hm.trans hm'
    · simp only [List.nil_append]
      rw [foldl_rebuildStep_daily_count]
      simp [countDailyWidgets]
  | none =>
    by_cases hfe : (sB.tasks.filter (fun t => !t.done)).isEmpty = true
    · rw [createChecklistForUser_noop_nondone_empty hm hBdate hBne hfe]
      refine ⟨?_, ?_, ?_, ?_, ?_, ?_, ?_⟩
      · rw [(foldl_rebuildStep_preserves _ _).2.2.1]
        exact hBdate
      · rw [(foldl_rebuildStep_preserves _ _).2.1]
      · rw [(foldl_rebuildStep_tasks _ _ hBclean).1]
      · exact (foldl_rebuildStep_tasks _ _ hBclean).2
      · intro _
        rw [(foldl_rebuildStep_tasks _ _ hBclean).1]
        exact hfe
      · intro m' hm'
        exact Option.noConfusion hm'
      · simp only [List.nil_append]
        rw [foldl_rebuildStep_daily_count]
        simp [countDailyWidgets]
    · rw [createChecklistForUser_creating hm hBdate hBne hfe]
      have hCtasks : (saveUserState { sB with checklist_message_id := some f }).tasks
          = sB.tasks := by simp [hBclean]
      have hCclean : cleanTasksList
          (saveUserState { sB with checklist_message_id := some f }).tasks
          = (saveUserState { sB with checklist_message_id := some f }).tasks := by
        simp [hBclean]
      refine ⟨?_, ?_, ?_, ?_, ?_, ?_, ?_⟩
      · rw [(foldl_rebuildStep_preserves _ _).2.2.1]
        simp [hBdate]
      · rw [(foldl_rebuildStep_preserves _ _).2.1]
        simp
      · rw [(foldl_rebuildStep_tasks _ _ hCclean).1, hCtasks]
      · exact (foldl_rebuildStep_tasks _ _ hCclean).2
      · intro hnone
        rw [(foldl_rebuildStep_preserves _ _).2.2.2] at hnone
        simp at hnone
      · intro m' hm'
        exact Option.noConfusion hm'
      · rw [countDailyWidgets_append, foldl_rebuildStep_daily_count]
        simp [countDailyWidgets, Effect.isDailyWidget]

/-- Postconditions of a full `start_new_day_for_user` run: current date and
`last_opened_date` set, a non-empty clean task list, all-done tasks whenever
no daily widget reference results, and at most one daily widget sent. -/
theorem startNewDayForUser_post (s : UserState) (d f : Nat) :
    (startNewDayForUser s d f).1.date = some d ∧
    (startNewDayForUser s d f).1.last_opened_date = some d ∧
    (startNewDayForUser s d f).1.tasks ≠ [] ∧
    cleanTasksList (startNewDayForUser s d f).1.tasks
      = (startNewDayForUser s d f).1.tasks ∧
    ((startNewDayForUser s d f).1.checklist_message_id = none →
      ((startNewDayForUser s d f).1.tasks.filter (fun t => !t.done)).isEmpty) ∧
    countDailyWidgets (startNewDayForUser s d f).2.2 ≤ 1 := by
  unfold startNewDayForUser
  simp only
  generalize hA : saveUserState { s with date := some d, last_opened_date := some d } = sA
  have hAdate : sA.date = some d := by rw [← hA]; simp
  have hAopen : sA.last_opened_date = some d := by rw [← hA]; simp
  have hAclean : cleanTasksList sA.tasks = sA.tasks := by
    rw [← hA]; simp [cleanTasksList_idem]
  by_cases hE : sA.tasks.isEmpty = true
  · rw [if_pos hE]
    generalize hB : saveUserState { sA with tasks := [⟨1, onboardingText, false⟩] } = sB
    have hBdate : sB.date = some d := by rw [← hB]; simpa using hAdate
    have hBopen : sB.last_opened_date = some d := by rw [← hB]; simpa using hAopen
    have hBtasks : sB.tasks = [⟨1, onboardingText, false⟩] := by
      rw [← hB]; simp [cleanTasksList_cons, dedupByIdAux, dedupByTextAux]
    have hBne : sB.tasks ≠ [] := by rw [hBtasks]; simp
    have hBclean : cleanTasksList sB.tasks = sB.tasks := by
      rw [← hB]; simp [cleanTasksList_idem]
    obtain ⟨o1, o2, o3, o4, o5, _, o7⟩ := @openTail_facts sB d f hBdate hBne hBclean
    exact ⟨o1, o2.trans hBopen, by rw [o3]; exact hBne, o4, o5, o7⟩
  · rw [if_neg hE]
    have hAne : sA.tasks ≠ [] := by
      intro hnil
      rw [hnil] at hE
      simp at hE
    obtain ⟨o1, o2, o3, o4, o5, _, o7⟩ := @openTail_facts sA d f hAdate hAne hAclean
    exact ⟨o1, o2.trans hAopen, by rw [o3]; exact hAne, o4, o5, o7⟩

/-- A `start_new_day_for_user` run on a record that already satisfies the
post-open facts for the same computed date creates no daily widget and leaves
the daily fields unchanged (tag widgets are still re-sent). -/
theorem startNewDayForUser_second {s1 : UserState} {d f' : Nat}
    (h3 : s1.tasks ≠ []) (h4 : cleanTasksList s1.tasks = s1.tasks)
    (h5 : s1.checklist_message_id = none →
        (s1.tasks.filter (fun t => !t.done)).isEmpty) :
    countDailyWidgets (startNewDayForUser s1 d f').2.2 = 0 ∧
    (startNewDayForUser s1 d f').1.checklist_message_id = s1.checklist_message_id ∧
    (startNewDayForUser s1 d f').1.tasks = s1.tasks ∧
    (startNewDayForUser s1 d f').1.date = some d ∧
    (startNewDayForUser s1 d f').1.last_opened_date = some d := by
  unfold startNewDayForUser
  simp only
  generalize hA : saveUserState { s1 with date := some d, last_opened_date := some d } = sA
  have hAtasks : sA.tasks = s1.tasks := by rw [← hA]; simp [h4]
  have hAdate : sA.date = some d := by rw [← hA]; simp
  have hAopen : sA.last_opened_date = some d := by rw [← hA]; simp
  have hAmsg : sA.checklist_message_id = s1.checklist_message_id := by rw [← hA]; simp
  have hAne₀ : sA.tasks ≠ [] := by rw [hAtasks]; exact h3
  have hAne : ¬sA.tasks.isEmpty = true := by rw [List.isEmpty_iff]; exact hAne₀
  rw [if_neg hAne]
  unfold openTail
  simp only
  have hAclean : cleanTasksList sA.tasks = sA.tasks := by rw [hAtasks]; exact h4
  have hcreate : createChecklistForUser sA d f' = (sA, f', []) := by
    cases hm : s1.checklist_message_id with
    | some m => exact createChecklistForUser_noop_existing (hAmsg.trans hm) hAdate
    | none =>
      refine createChecklistForUser_noop_nondone_empty (hAmsg.trans hm) hAdate hAne₀ ?_
      rw [hAtasks]
      exact h5 hm
  rw [hcreate]
  refine ⟨?_, ?_, ?_, ?_, ?_⟩
  · simp only [List.nil_append]
    rw [foldl_rebuildStep_daily_count]
    simp [countDailyWidgets]
  · rw [(foldl_rebuildStep_preserves _ _).2.2.2]
    exact hAmsg
  · rw [(foldl_rebuildStep_tasks _ _ hAclean).1]
    exact hAtasks
  · rw [(foldl_rebuildStep_preserves _ _).2.2.1]
    exact hAdate
  · rw [(foldl_rebuildStep_preserves _ _).2.1]
    exact hAopen

/-! ## Claim C3 -/

/-- C3 counterexample. `start_new_day_for_user` has NO `last_opened_date`
guard: even when `last_opened_date` already equals the computed local date,
calling Open mutates the record — it re-sends the tag checklist widget,
changing the tag's `checklist_message_id` from 11 to the fresh id 100. -/
theorem claim_C3_counterexample :
    ({ date := some 7, last_opened_date := some 7, checklist_message_id := some 10,
       tasks := [⟨1, "a", false⟩],
       tag_checklists := [("#t", ⟨"#t", some 11, [⟨1, "b", false⟩]⟩)] } :
        UserState).last_opened_date = some 7 ∧
    (startNewDayForUser
      ({ date := some 7, last_opened_date := some 7, checklist_message_id := some 10,
         tasks := [⟨1, "a", false⟩],
         tag_checklists := [("#t", ⟨"#t", some 11, [⟨1, "b", false⟩]⟩)] } :
          UserState) 7 100).1 ≠
      ({ date := some 7, last_opened_date := some 7, checklist_message_id := some 10,
         tasks := [⟨1, "a", false⟩],
         tag_checklists := [("#t", ⟨"#t", some 11, [⟨1, "b", false⟩]⟩)] } :
          UserState) ∧
    (startNewDayForUser
      ({ date := some 7, last_opened_date := some 7, checklist_message_id := some 10,
         tasks := [⟨1, "a", false⟩],
         tag_checklists := [("#t", ⟨"#t", some 11, [⟨1, "b", false⟩]⟩)] } :
          UserState) 7 100).2.2 = [Effect.sendTagChecklist "#t" 100] :=
  ⟨rfl, by decide, by decide⟩

/-- C3 (amended). Open is not a state no-op when the day is already open
(tag widgets are unconditionally re-sent), but the daily widget is created at
most once: a first Open sends at most one daily widget, and a second Open for
the same computed date sends none and leaves the daily checklist reference,
the task list, the working date and `last_opened_date` unchanged. -/
theorem claim_C3_open_idempotent_amended (s : UserState) (d f f' : Nat) :
    countDailyWidgets (startNewDayForUser s d f).2.2 ≤ 1 ∧
    countDailyWidgets (startNewDayForUser (startNewDayForUser s d f).1 d f').2.2 = 0 ∧
    (startNewDayForUser (startNewDayForUser s d f).1 d f').1.checklist_message_id
        = (startNewDayForUser s d f).1.checklist_message_id ∧
    (startNewDayForUser (startNewDayForUser s d f).1 d f').1.tasks
        = (startNewDayForUser s d f).1.tasks ∧
    (startNewDayForUser (startNewDayForUser s d f).1 d f').1.date
        = (startNewDayForUser s d f).1.date ∧
    (startNewDayForUser (startNewDayForUser s d f).1 d f').1.last_opened_date
        = (startNewDayForUser s d f).1.last_opened_date := by
  obtain ⟨p1, p2, p3, p4, p5, p6⟩ := startNewDayForUser_post s d f
  obtain ⟨q1, q2, q3, q4, q5⟩ := startNewDayForUser_second p3 p4 p5
  exact ⟨p6, q1, q2, q3, q4.trans p1.symm, q5.trans p2.symm⟩

/-! ## Claim C4 -/

/-- Element-wise specification of one text-sync pass with key `key` and new
status `v`: identity and text survive; a matching normalised text forces
`done = v`; a non-matching task is untouched. -/
def syncRel (key : String) (v : Bool) (t t' : TaskItem) : Prop :=
  t'.item_id = t.item_id ∧ t'.text = t.text ∧
  (normalizeText t.text = key → t'.done = v) ∧
  (normalizeText t.text ≠ key → t' = t)

theorem syncList_forall₂ (key : String) (v : Bool) (l : List TaskItem) :
    List.Forall₂ (syncRel key v) l (syncList key v l).1 := by
  induction l with
  | nil => simp [syncList]
  | cons t ts ih =>
    simp only [syncList]
    refine List.Forall₂.cons ?_ ih
    unfold syncOne syncRel
    by_cases h : normalizeText t.text = key
    · rw [if_pos h]
      by_cases hd : t.done ≠ v
      · rw [if_pos hd]
        exact ⟨rfl, rfl, fun _ => rfl, fun hne => absurd h hne⟩
      · rw [if_neg hd]
        push_neg at hd
        exact ⟨rfl, rfl, fun _ => hd, fun hne => absurd h hne⟩
    · rw [if_neg h]
      exact ⟨rfl, rfl, fun he => absurd he h, fun _ => rfl⟩

/-- C4 counterexample. When the updated task's text normalises to the EMPTY
string, `sync_task_status_by_text` returns immediately without propagating:
the two whitespace-texted tasks share the same normalised text, yet after the
engine updated the first to done and called the sync with its text `" "`, the
second task keeps `done = false`. -/
theorem claim_C4_counterexample :
    normalizeText " " = normalizeText "  " ∧
    syncTaskStatusByText ({ tasks := [⟨1, " ", true⟩, ⟨2, "  ", false⟩] } : UserState)
        " " true
      = (({ tasks := [⟨1, " ", true⟩, ⟨2, "  ", false⟩] } : UserState), false) ∧
    ({ tasks := [⟨1, " ", true⟩, ⟨2, "  ", false⟩] } : UserState).tasks.map TaskItem.done
      = [true, false] :=
  ⟨by decide, by decide, by decide⟩

/-- C4 (amended). For a source text with a NON-EMPTY normalised form,
`sync_task_status_by_text` rewrites, in a single pass, exactly the tasks
(daily and in every tag checklist) whose normalised text equals the source's,
setting their `done` flag to the new value, and leaves every other task —
and every tag key, title and widget reference — unchanged. -/
theorem claim_C4_text_sync_amended (s : UserState) (txt : String) (v : Bool)
    (hkey : normalizeText txt ≠ "") :
    List.Forall₂ (syncRel (normalizeText txt) v) s.tasks
      (syncTaskStatusByText s txt v).1.tasks ∧
    List.Forall₂
      (fun p q => q.1 = p.1 ∧ q.2.title = p.2.title ∧
        q.2.checklist_message_id = p.2.checklist_message_id ∧
        List.Forall₂ (syncRel (normalizeText txt) v) p.2.tasks q.2.tasks)
      s.tag_checklists (syncTaskStatusByText s txt v).1.tag_checklists := by
  unfold syncTaskStatusByText
  rw [if_neg hkey]
  simp only
  constructor
  · exact syncList_forall₂ _ _ _
  · have haux : ∀ (l : List (String × TagChecklistState)),
        List.Forall₂
          (fun p q => q.1 = p.1 ∧ q.2.title = p.2.title ∧
            q.2.checklist_message_id = p.2.checklist_message_id ∧
            List.Forall₂ (syncRel (normalizeText txt) v) p.2.tasks q.2.tasks)
          l
          ((l.map (fun p =>
              ((p.1, { p.2 with tasks := (syncList (normalizeText txt) v p.2.tasks).1 }),
               (syncList (normalizeText txt) v p.2.tasks).2))).map Prod.fst) := by
      intro l
      induction l with
      | nil => simp
      | cons p ps ih =>
        simp only [List.map_cons]
        exact List.Forall₂.cons ⟨rfl, rfl, rfl, syncList_forall₂ _ _ _⟩ ih
    exact haux s.tag_checklists

/-- Witness for the amended C4: propagating `done = true` from "Buy milk"
onto a record containing the differently-spelled duplicate " buy   MILK ". -/
theorem claim_C4_text_sync_amended_witness :
    normalizeText "Buy milk" ≠ "" ∧
    List.Forall₂ (syncRel (normalizeText "Buy milk") true)
      ({ tasks := [⟨1, " buy   MILK ", false⟩] } : UserState).tasks
      (syncTaskStatusByText ({ tasks := [⟨1, " buy   MILK ", false⟩] } : UserState)
        "Buy milk" true).1.tasks :=
  ⟨by decide,
   (claim_C4_text_sync_amended
      ({ tasks := [⟨1, " buy   MILK ", false⟩] } : UserState) "Buy milk" true
      (by decide)).1⟩

/-! ## Claim C5 -/

/-- The `[✅]` lines of `generate_daily_report` are exactly the done tasks:
done daily tasks other than the synthetic onboarding task, and every done
tagged task. -/
theorem taskLine_mem_report (s : UserState) (c : Nat) (x : String) :
    ReportLine.taskLine x ∈ generateDailyReport s c ↔
      ((∃ t ∈ s.tasks, t.done ∧ t.text ≠ onboardingText ∧ t.text = x) ∨
       (∃ p ∈ s.tag_checklists, ∃ t ∈ p.2.tasks, t.done ∧ t.text = x)) := by
  unfold generateDailyReport
  simp only
  split
  · rename_i hcond
    rw [Bool.and_eq_true, List.isEmpty_iff, List.isEmpty_iff] at hcond
    obtain ⟨h1, h2⟩ := hcond
    rw [List.filterMap_eq_nil_iff] at h2
    constructor
    · intro h
      simp at h
    · rintro (⟨t, ht, hdone, -, -⟩ | ⟨p, hp, t, ht, hdone, -⟩)
      · have : t ∈ s.tasks.filter (·.done) := List.mem_filter.2 ⟨ht, by simp [hdone]⟩
        rw [h1] at this
        simp at this
      · have h3 := h2 p hp
        by_cases hE : (p.2.tasks.filter (·.done)).isEmpty = true
        · rw [List.isEmpty_iff, List.filter_eq_nil_iff] at hE
          exact (hE t ht (by simp [hdone])).elim
        · rw [if_neg hE] at h3
          cases h3
  · simp
    constructor
    · rintro (⟨a, ⟨ha, honb, hdone⟩, rfl⟩ | ⟨a, b, ⟨a1, b1, hmem, -, rfl, rfl⟩, t, ht, rfl⟩)
      · exact Or.inl ⟨a, ha, hdone, honb, rfl⟩
      · have hf := List.mem_filter.1 ht
        exact Or.inr ⟨a1, b1, hmem, t, hf.1, by simpa using hf.2, rfl⟩
    · rintro (⟨t, ht, hdone, honb, rfl⟩ | ⟨a, b, hmem, t, ht, hdone, rfl⟩)
      · exact Or.inl ⟨t, ⟨ht, honb, hdone⟩, rfl⟩
      · exact Or.inr ⟨a, b.tasks.filter (·.done), ⟨a, b, hmem, ⟨t, ht, hdone⟩, rfl, rfl⟩,
          t, List.mem_filter.2 ⟨ht, by simp [hdone]⟩, rfl⟩

/-- C5 counterexample.  Two defects of the claim as stated, at one input
(a done onboarding task plus carried-over duplicate texts "a" and "A"):
the persisted daily list after Close is `[⟨1,"a"⟩]`, NOT the renumbered
not-done tasks `[⟨1,"a"⟩, ⟨2,"A"⟩]` (the persist-time text dedup of
`save_user_state` dropped "A"); and the report of that Close does NOT list
the done onboarding task (it is filtered out of the report). -/
theorem claim_C5_counterexample :
    (closeDay
      ({ date := some 5,
         tasks := [⟨1, onboardingText, true⟩, ⟨2, "a", false⟩, ⟨3, "A", false⟩] } :
        UserState) 5).1.tasks = [⟨1, "a", false⟩] ∧
    renumber (([⟨1, onboardingText, true⟩, ⟨2, "a", false⟩, ⟨3, "A", false⟩] :
        List TaskItem).filter (fun t => !t.done))
      = [⟨1, "a", false⟩, ⟨2, "A", false⟩] ∧
    ([⟨1, "a", false⟩] : List TaskItem) ≠ [⟨1, "a", false⟩, ⟨2, "A", false⟩] ∧
    TaskItem.done ⟨1, onboardingText, true⟩ = true ∧
    generateDailyReport
      ({ date := some 5,
         tasks := [⟨1, onboardingText, true⟩, ⟨2, "a", false⟩, ⟨3, "A", false⟩] } :
        UserState) 5
      = [ReportLine.header 5, ReportLine.blank] :=
  ⟨by decide, by decide, by decide, rfl, by decide⟩

/-- C5 (amended).  After a close of the current computed date: the daily task
list is the previously not-done daily tasks renumbered `1..N` and then
deduplicated at persist time; tags keep exactly their not-done tasks
(renumbered then deduplicated) and tags left empty are dropped; the daily
widget reference is cleared; the delivered report's task lines are exactly
the done tasks — the daily ones except the synthetic onboarding task, plus
every done tagged task — and hence no carried-over (not-done) task is
listed. -/
theorem claim_C5_rollover_carry_over_amended (s : UserState) (c : Nat)
    (hd : s.date = some c) (hne : s.last_closed_date ≠ some c) :
    (closeDay s c).1.tasks
      = cleanTasksList (renumber (s.tasks.filter (fun t => !t.done))) ∧
    (closeDay s c).1.tag_checklists
      = s.tag_checklists.filterMap (fun p =>
          let pend := p.2.tasks.filter (fun t => !t.done)
          if pend.isEmpty then none
          else some (p.1, TagChecklistState.mk p.1 none (cleanTasksList (renumber pend)))) ∧
    (closeDay s c).1.checklist_message_id = none ∧
    (closeDay s c).1.last_closed_date = some c ∧
    Effect.sendReport (generateDailyReport s c) ∈ (closeDay s c).2 ∧
    (∀ x, ReportLine.taskLine x ∈ generateDailyReport s c ↔
      ((∃ t ∈ s.tasks, t.done ∧ t.text ≠ onboardingText ∧ t.text = x) ∨
       (∃ p ∈ s.tag_checklists, ∃ t ∈ p.2.tasks, t.done ∧ t.text = x))) := by
  rw [closeDay_spec_current hd hne]
  refine ⟨by simp, ?_, by simp, by simp, List.mem_cons_self _ _,
    fun x => taskLine_mem_report s c x⟩
  rw [saveUserState_tag_checklists, List.map_filterMap]
  congr 1
  funext p
  simp only
  split
  · simp
  · simp

/-- Witness for the amended C5 on a concrete two-task record. -/
theorem claim_C5_rollover_carry_over_amended_witness :
    ({ date := some 5, tasks := [⟨1, "b", false⟩, ⟨2, "a", true⟩] } : UserState).date
      = some 5 ∧
    (closeDay
      ({ date := some 5, tasks := [⟨1, "b", false⟩, ⟨2, "a", true⟩] } : UserState) 5).1.tasks
      = cleanTasksList (renumber
          (([⟨1, "b", false⟩, ⟨2, "a", true⟩] : List TaskItem).filter (fun t => !t.done))) :=
  ⟨rfl,
   (claim_C5_rollover_carry_over_amended
      ({ date := some 5, tasks := [⟨1, "b", false⟩, ⟨2, "a", true⟩] } : UserState) 5
      rfl (by decide)).1⟩

/-! ## Event-resolution lemmas (`handle_checklist_state_update`) -/

/-- The widget message references an inbound event can be resolved from,
besides the item-id lookup: the `checklist_tasks_done` widget reference, the
`checklist_tasks_added` widget reference, the `reply_to_message` id and the
service message id (the fallback chain of the handler's resolution step). -/
def candidateRefs (ev : ChecklistEvent) : List Nat :=
  (if ev.hasDone then ev.doneChecklistMsgId else none).toList
    ++ (if ev.hasAdded then ev.addedChecklistMsgId else none).toList
    ++ ev.replyToMsgId.toList ++ ev.serviceMsgId.toList

/-- An `<|>` chain of three options resolves to one of its links. -/
theorem mem_of_orElse3 {a b c : Option Nat} {m : Nat}
    (h : ((a <|> b) <|> c) = some m) : a = some m ∨ b = some m ∨ c = some m := by
  cases a with
  | some x =>
    left
    simpa using h
  | none =>
    cases b with
    | some y =>
      right; left
      simpa using h
    | none =>
      right; right
      simpa using h

/-- When no toggled item id occurs in any checklist, the resolved
`original_message_id` is `none` or one of the event's own candidate widget
references. -/
theorem resolveOriginal_no_item_match (s : UserState) (ev : ChecklistEvent)
    (hids : ∀ i ∈ ev.allIds,
      (∀ t ∈ s.tasks, t.item_id ≠ i) ∧
      (∀ p ∈ s.tag_checklists, ∀ t ∈ p.2.tasks, t.item_id ≠ i)) :
    (resolveOriginalMessageId s ev).1 = none ∨
    ∃ m, (resolveOriginalMessageId s ev).1 = some m ∧ m ∈ candidateRefs ev := by
  unfold resolveOriginalMessageId
  cases h1 : (if ev.hasDone then ev.doneChecklistMsgId else none) with
  | some m =>
    right
    exact ⟨m, rfl, by simp [candidateRefs, h1]⟩
  | none =>
    have hany : s.tasks.any (fun t => ev.allIds.contains t.item_id) = false := by
      rw [List.any_eq_false]
      intro t ht hc
      simp at hc
      exact (hids _ hc).1 t ht rfl
    have hfind : s.tag_checklists.find?
        (fun p => p.2.tasks.any (fun t => ev.allIds.contains t.item_id)) = none := by
      rw [List.find?_eq_none]
      intro p hp
      rw [Bool.not_eq_true, List.any_eq_false]
      intro t ht hc
      simp at hc
      exact (hids _ hc).2 p hp t ht rfl
    simp only [hany, hfind, Bool.false_eq_true, if_false, ite_self]
    cases h2 : ((if ev.hasAdded then ev.addedChecklistMsgId else none)
        <|> ev.replyToMsgId) <|> ev.serviceMsgId with
    | none => exact Or.inl rfl
    | some m =>
      right
      refine ⟨m, rfl, ?_⟩
      rcases mem_of_orElse3 h2 with h | h | h <;>
        simp [candidateRefs, h]

/-! ## Claim C6 -/

/-- C6.  Fail-closed resolution (confirmed): for every inbound checklist
toggle event that cannot be mapped to any live checklist — none of the
event's candidate widget references matches the daily or a tag checklist
reference, and no toggled item id occurs in any checklist's task set — the
handler returns the record unchanged and reports `updated = false` (nothing
persisted).  Totality of `handleChecklistStateUpdate` models the source's
catch-all `try`/`except`: nothing ever propagates to the caller. -/
theorem claim_C6_fail_closed (s : UserState) (ev : ChecklistEvent)
    (href : ∀ m ∈ candidateRefs ev, matchTarget s m = none)
    (hids : ∀ i ∈ ev.allIds,
      (∀ t ∈ s.tasks, t.item_id ≠ i) ∧
      (∀ p ∈ s.tag_checklists, ∀ t ∈ p.2.tasks, t.item_id ≠ i)) :
    handleChecklistStateUpdate s ev = (s, false) := by
  have hrt : resolveTarget s ev = none := by
    unfold resolveTarget
    rcases resolveOriginal_no_item_match s ev hids with h | ⟨m, h, hmem⟩
    · cases hro : resolveOriginalMessageId s ev with
      | mk o ided =>
        rw [hro] at h
        simp at h
        subst h
        rfl
    · cases hro : resolveOriginalMessageId s ev with
      | mk o ided =>
        rw [hro] at h
        simp at h
        subst h
        simp [href m hmem]
  unfold handleChecklistStateUpdate
  split
  · rfl
  · rw [hrt]

/-- A record with a live daily widget (reference 5) and one task (id 1),
receiving a toggle for the unknown item id 2 with an unmatched service
message reference 999. -/
def c6WitnessState : UserState :=
  { checklist_message_id := some 5, tasks := [⟨1, "a", false⟩] }

/-- The unmappable toggle event paired with `c6WitnessState`. -/
def c6WitnessEvent : ChecklistEvent :=
  { hasDone := true, doneIds := [2], serviceMsgId := some 999 }

/-- Witness for C6: the concrete unmappable event is dropped without any
state change. -/
theorem claim_C6_fail_closed_witness :
    (∀ m ∈ candidateRefs c6WitnessEvent, matchTarget c6WitnessState m = none) ∧
    handleChecklistStateUpdate c6WitnessState c6WitnessEvent
      = (c6WitnessState, false) :=
  ⟨by decide,
   claim_C6_fail_closed c6WitnessState c6WitnessEvent (by decide) (by decide)⟩

/-! ## Claim C7 -/

/-- A record whose daily checklist has NO stored widget reference but whose
task list contains item id 1, while the live tag checklist `#t` (widget 50)
also contains item id 1. -/
def c7CexState : UserState :=
  { checklist_message_id := none, tasks := [⟨1, "a", false⟩],
    tag_checklists := [("#t", ⟨"#t", some 50, [⟨1, "b", false⟩]⟩)] }

/-- A toggle of item id 1 carrying no widget reference (service message 999
only). -/
def c7CexEvent : ChecklistEvent :=
  { hasDone := true, doneIds := [1], serviceMsgId := some 999 }

/-- C7 counterexample.  The toggled item id 1 occurs both in the daily task
set and in a live tag checklist's task set, and the event carries no widget
reference — yet the engine does NOT resolve the event to the daily checklist
(nor to the tag): because the daily branch wins the item-id lookup and then
yields the daily widget reference `None`, resolution falls through to the
unmatched service-message id and the event is dropped entirely, even though
the tag checklist's widget is live and contains the id. -/
theorem claim_C7_counterexample :
    resolveTarget c7CexState c7CexEvent = none ∧
    (∃ t ∈ c7CexState.tasks, t.item_id = 1) ∧
    (∃ p ∈ c7CexState.tag_checklists, ∃ t ∈ p.2.tasks, t.item_id = 1) ∧
    c7CexEvent.doneChecklistMsgId = none ∧ 1 ∈ c7CexEvent.allIds :=
  ⟨by decide, by decide, by decide, rfl, by decide⟩

/-- C7 (amended).  Daily-first ambiguity resolution holds only when the daily
checklist has a live widget reference: for an event carrying toggled item
identifiers and no `checklist_tasks_done` widget reference, if some toggled
id occurs in the daily task set (even if it also occurs in tag checklists),
the engine resolves the event to the daily checklist with the
`identified_by_item_id` flag set.  Without a stored daily widget reference
the daily branch still wins the lookup but resolution then falls through to
the remaining fallbacks (see the counterexample). -/
theorem claim_C7_daily_first_amended (s : UserState) (ev : ChecklistEvent) (i m : Nat)
    (hdone : ev.hasDone = true)
    (hnoref : ev.doneChecklistMsgId = none)
    (hi : i ∈ ev.allIds)
    (hdaily : ∃ t ∈ s.tasks, t.item_id = i)
    (htag : ∃ p ∈ s.tag_checklists, ∃ t ∈ p.2.tasks, t.item_id = i)
    (hlive : s.checklist_message_id = some m) :
    resolveTarget s ev = some (.daily, true) := by
  have h1 : (if ev.hasDone then ev.doneChecklistMsgId else none) = none := by
    simp [hdone, hnoref]
  have hne : ev.allIds.isEmpty = false := by
    cases hia : ev.allIds with
    | nil => rw [hia] at hi; cases hi
    | cons a l => rfl
  have hany : s.tasks.any (fun t => ev.allIds.contains t.item_id) = true := by
    rw [List.any_eq_true]
    obtain ⟨t, ht, hti⟩ := hdaily
    exact ⟨t, ht, by simp [hti, hi]⟩
  clear htag
  unfold resolveTarget resolveOriginalMessageId
  rw [h1]
  simp only [hne, Bool.false_eq_true, if_false, hany, if_true, hlive]
  simp [matchTarget, hlive]

/-- Like `c7CexState` but with a live daily widget (reference 10): item id 1
occurs in the daily task set and in the live tag checklist `#t`. -/
def c7WitnessState : UserState :=
  { checklist_message_id := some 10, tasks := [⟨1, "a", false⟩],
    tag_checklists := [("#t", ⟨"#t", some 50, [⟨1, "b", false⟩]⟩)] }

/-- The id-only toggle event paired with `c7WitnessState`. -/
def c7WitnessEvent : ChecklistEvent :=
  { hasDone := true, doneIds := [1], serviceMsgId := some 999 }

/-- Witness for the amended C7: with the daily widget live, the ambiguous
toggle (id 1 in both the daily and a tag checklist) resolves to the daily
checklist. -/
theorem claim_C7_daily_first_amended_witness :
    (∃ t ∈ c7WitnessState.tasks, t.item_id = 1) ∧
    (∃ p ∈ c7WitnessState.tag_checklists, ∃ t ∈ p.2.tasks, t.item_id = 1) ∧
    resolveTarget c7WitnessState c7WitnessEvent = some (.daily, true) :=
  ⟨by decide, by decide,
   claim_C7_daily_first_amended c7WitnessState c7WitnessEvent 1 10 rfl rfl
     (by decide) (by decide) (by decide) rfl⟩

/-! ## Claim C8 -/

/-- The `identified_by_item_id` toggle loop ignores identifiers that match no
task's `item_id` in the target checklist. -/
theorem identifiedFold_noop {s : UserState} {tk : TargetKind} {ids : List Nat} (v : Bool)
    (h : ∀ i ∈ ids, ∀ t ∈ getTargetTasks s tk, t.item_id ≠ i) :
    ids.foldl (identifiedStep tk v) (s, false) = (s, false) := by
  induction ids with
  | nil => rfl
  | cons i is ih =>
    simp only [List.foldl_cons]
    have hstep : identifiedStep tk v (s, false) i = (s, false) := by
      have hnone : (getTargetTasks s tk).findIdx? (fun t => t.item_id == i) = none := by
        rw [List.findIdx?_eq_none_iff]
        intro t ht
        simp [h i (List.mem_cons_self _ _) t ht]
      simp only [identifiedStep, hnone]
    rw [hstep]
    exact ih (fun j hj => h j (List.mem_cons_of_mem _ hj))

/-- The direct (positional-iteration) toggle loop also ignores identifiers
that match no task's `item_id`: each position's task is compared by `item_id`
against the toggled id sets, never positionally. -/
theorem directFold_noop {s : UserState} {tk : TargetKind} {dIds ndIds : List Nat}
    (h1 : ∀ i ∈ dIds, ∀ t ∈ getTargetTasks s tk, t.item_id ≠ i)
    (h2 : ∀ i ∈ ndIds, ∀ t ∈ getTargetTasks s tk, t.item_id ≠ i)
    (is : List Nat) :
    is.foldl (directStep tk dIds ndIds) (s, false) = (s, false) := by
  induction is with
  | nil => rfl
  | cons i js ih =>
    simp only [List.foldl_cons]
    have hstep : directStep tk dIds ndIds (s, false) i = (s, false) := by
      cases hget : (getTargetTasks s tk)[i]? with
      | none => simp [directStep, hget]
      | some t =>
        have hmem := memOfGetElem hget
        have hd : t.item_id ∉ dIds := fun hc => h1 _ hc t hmem rfl
        have hnd : t.item_id ∉ ndIds := fun hc => h2 _ hc t hmem rfl
        simp [directStep, hget, hd, hnd]
    rw [hstep]
    exact ih

/-- A record with a live daily widget (reference 10) whose two tasks carry
item ids 5 and 6 and are both not done. -/
def c8CexState : UserState :=
  { checklist_message_id := some 10, tasks := [⟨5, "a", false⟩, ⟨6, "b", false⟩] }

/-- A done-toggle for identifier 1 that references widget 10 explicitly: it
resolves to the daily checklist, but id 1 matches no task's `item_id`. -/
def c8CexEvent : ChecklistEvent :=
  { hasDone := true, doneChecklistMsgId := some 10, doneIds := [1] }

/-- C8 counterexample.  An event resolved to the daily checklist whose
toggled identifier 1 matches no task's `item_id` is NOT reinterpreted
positionally: were the claimed 1-based positional fallback over not-done
tasks real, the first task (id 5, not done) would be marked done; instead the
handler leaves the record unchanged and persists nothing. -/
theorem claim_C8_counterexample :
    resolveTarget c8CexState c8CexEvent = some (.daily, false) ∧
    (∀ t ∈ c8CexState.tasks, t.item_id ≠ 1) ∧
    (1 : Nat) ∈ c8CexEvent.doneIds ∧
    c8CexState.tasks.map TaskItem.done = [false, false] ∧
    handleChecklistStateUpdate c8CexState c8CexEvent = (c8CexState, false) :=
  ⟨by decide, by decide, by decide, by decide, by decide⟩

/-- C8 (amended).  There is no positional legacy fallback: toggled
identifiers are matched against the resolved checklist's tasks by `item_id`
only (in both the `identified_by_item_id` and the direct variant), so when no
toggled identifier matches any task's `item_id` the handler returns the
record unchanged and does not persist. -/
theorem claim_C8_no_positional_fallback_amended (s : UserState)
    (ev : ChecklistEvent) (tk : TargetKind) (ided : Bool)
    (hres : resolveTarget s ev = some (tk, ided))
    (hids : ∀ i ∈ ev.allIds, ∀ t ∈ getTargetTasks s tk, t.item_id ≠ i) :
    handleChecklistStateUpdate s ev = (s, false) := by
  have hdm : ∀ i ∈ (if ev.hasDone then ev.doneIds else []),
      ∀ t ∈ getTargetTasks s tk, t.item_id ≠ i := by
    intro i hi
    apply hids
    cases h : ev.hasDone with
    | true =>
      rw [h] at hi
      simp at hi
      simp [ChecklistEvent.allIds, h, List.mem_append]
      exact Or.inl hi
    | false =>
      rw [h] at hi
      simp at hi
  have hndm : ∀ i ∈ (if ev.hasDone then ev.notDoneIds else []),
      ∀ t ∈ getTargetTasks s tk, t.item_id ≠ i := by
    intro i hi
    apply hids
    cases h : ev.hasDone with
    | true =>
      rw [h] at hi
      simp at hi
      simp [ChecklistEvent.allIds, h, List.mem_append]
      exact Or.inr hi
    | false =>
      rw [h] at hi
      simp at hi
  unfold handleChecklistStateUpdate
  split
  · rfl
  · rw [hres]
    simp only
    cases ided with
    | true =>
      unfold identifiedPass
      rw [identifiedFold_noop true hdm, identifiedFold_noop false hndm]
      rfl
    | false =>
      unfold directPass
      rw [directFold_noop hdm hndm]
      rfl

/-- Witness for the amended C8 at the counterexample's concrete input: the
resolved event with an unmatched identifier changes nothing. -/
theorem claim_C8_no_positional_fallback_amended_witness :
    resolveTarget c8CexState c8CexEvent = some (.daily, false) ∧
    (∀ i ∈ c8CexEvent.allIds,
      ∀ t ∈ getTargetTasks c8CexState .daily, t.item_id ≠ i) ∧
    handleChecklistStateUpdate c8CexState c8CexEvent = (c8CexState, false) :=
  ⟨by decide, by decide,
   claim_C8_no_positional_fallback_amended c8CexState c8CexEvent .daily false
     (by decide) (by decide)⟩

/-! ## Claim C9 -/

/-- `create_checklist_for_user` leaves an already-clean non-empty task list
unchanged (it only fixes the date, seeds the onboarding task into an EMPTY
list, and stores the widget reference; every save re-runs the persist-time
cleanup, the identity on a clean list). -/
theorem createChecklistForUser_tasks {s : UserState} {cd f : Nat}
    (hne : s.tasks ≠ []) (hclean : cleanTasksList s.tasks = s.tasks) :
    (createChecklistForUser s cd f).1.tasks = s.tasks := by
  unfold createChecklistForUser
  split
  · split
    · split <;> simp [hclean]
    · rfl
  · simp only
    split <;> split <;> split <;>
      first
        | rfl
        | (simp [hclean]; done)
        | (rename_i h1 h2 h3
           simp only [saveUserState_tasks] at h2
           rw [hclean] at h2
           exact absurd (List.isEmpty_iff.1 h2) hne)
        | (rename_i h1 h2 h3
           exact absurd (List.isEmpty_iff.1 h2) hne)

/-- `update_checklist_for_user` also leaves a clean non-empty task list
unchanged. -/
theorem updateChecklistForUser_tasks {s : UserState} {cd f : Nat}
    (hne : s.tasks ≠ []) (hclean : cleanTasksList s.tasks = s.tasks) :
    (updateChecklistForUser s cd f).1.tasks = s.tasks := by
  unfold updateChecklistForUser
  split
  · exact createChecklistForUser_tasks hne hclean
  · rfl

/-- Postcondition of `finalize_task_without_tag` when a non-empty pending
text whose normalised form duplicates no existing daily task is committed:
the final task list is the cleaned previous list plus the new task (next free
item id, not done), and every pending field is cleared. -/
theorem finalizeTaskWithoutTag_post (s : UserState) (cd f : Nat) (txt : String)
    (ht : s.pending_task_text = some txt) (htne : txt ≠ "")
    (hdup : ∀ u ∈ s.tasks, stripLower u.text ≠ stripLower txt) :
    (finalizeTaskWithoutTag s cd f).1.tasks
        = cleanTasksList s.tasks ++ [⟨maxItemId s.tasks + 1, txt, false⟩] ∧
    (finalizeTaskWithoutTag s cd f).1.pending_task_text = none ∧
    (finalizeTaskWithoutTag s cd f).1.awaiting_tag = false ∧
    (finalizeTaskWithoutTag s cd f).1.pending_task_message_id = none ∧
    (finalizeTaskWithoutTag s cd f).1.pending_service_message_ids = [] ∧
    (finalizeTaskWithoutTag s cd f).1.pending_confirm_job_id = none := by
  have hid : ∀ u ∈ s.tasks,
      u.item_id ≠ (⟨maxItemId s.tasks + 1, txt, false⟩ : TaskItem).item_id := by
    intro u hu
    have := le_maxItemId hu
    simp only
    omega
  have happ : cleanTasksList (s.tasks ++ [⟨maxItemId s.tasks + 1, txt, false⟩])
      = cleanTasksList s.tasks ++ [⟨maxItemId s.tasks + 1, txt, false⟩] :=
    cleanTasksList_append_singleton hid hdup
  have hA_tasks : (saveUserState
      { s with tasks := s.tasks ++ [⟨maxItemId s.tasks + 1, txt, false⟩],
               pending_task_text := some txt }).tasks
      = cleanTasksList s.tasks ++ [⟨maxItemId s.tasks + 1, txt, false⟩] := by
    rw [saveUserState_tasks]
    exact happ
  have hA_ne : (saveUserState
      { s with tasks := s.tasks ++ [⟨maxItemId s.tasks + 1, txt, false⟩],
               pending_task_text := some txt }).tasks
      ≠ [] := by
    rw [hA_tasks]
    simp
  have hA_clean : cleanTasksList (saveUserState
      { s with tasks := s.tasks ++ [⟨maxItemId s.tasks + 1, txt, false⟩],
               pending_task_text := some txt }).tasks
      = (saveUserState
      { s with tasks := s.tasks ++ [⟨maxItemId s.tasks + 1, txt, false⟩],
               pending_task_text := some txt }).tasks := by
    rw [saveUserState_tasks]
    exact cleanTasksList_idem _
  unfold finalizeTaskWithoutTag
  rw [ht]
  simp only
  rw [if_neg htne]
  refine ⟨?_, by simp, by simp, by simp, by simp, by simp⟩
  simp only [saveUserState_tasks, cleanTasksList_idem]
  rw [updateChecklistForUser_tasks hA_ne hA_clean]
  simp only [saveUserState_tasks, cleanTasksList_idem]
  exact happ

/-- A record whose pending text "Buy milk" duplicates (case-insensitively)
the existing daily task "buy milk" when the auto-skip timeout fires. -/
def c9CexState : UserState :=
  { pending_task_text := some "Buy milk", awaiting_tag := true,
    checklist_message_id := some 10, tasks := [⟨1, "buy milk", false⟩] }

/-- C9 counterexample.  The timeout handler does NOT append the pending task
to the daily list: `finalize_task_without_tag` appends it, but the
`save_user_state` calls that follow run the persist-time text dedup, which
silently drops the new task because its trimmed lowercase text equals the
existing task's — the final list is unchanged and no task with the pending
text exists, even though the pending fields were cleared. -/
theorem claim_C9_counterexample :
    c9CexState.pending_task_text = some "Buy milk" ∧
    (autoSkipPendingTask c9CexState 0 100).1.tasks = [⟨1, "buy milk", false⟩] ∧
    (∀ t ∈ (autoSkipPendingTask c9CexState 0 100).1.tasks, t.text ≠ "Buy milk") ∧
    (autoSkipPendingTask c9CexState 0 100).1.pending_task_text = none :=
  ⟨rfl, by decide, by decide, by decide⟩

/-- C9 (amended).  The timeout handler is a guarded no-op when no pending
text remains; when a non-empty pending text is set AND its trimmed lowercase
form duplicates no existing daily task, it is appended untagged with the next
free item id (the previous list being rewritten by the persist-time cleanup)
and every pending field is cleared, `awaiting_tag` returning to `false`.
Without the no-duplicate proviso the appended task can be silently dropped at
persist time (see the counterexample). -/
theorem claim_C9_pending_timeout_amended (s : UserState) (cd f : Nat) :
    (s.pending_task_text = none → autoSkipPendingTask s cd f = (s, f, [])) ∧
    (∀ txt, s.pending_task_text = some txt → txt ≠ "" →
      (∀ u ∈ s.tasks, stripLower u.text ≠ stripLower txt) →
      (autoSkipPendingTask s cd f).1.tasks
          = cleanTasksList s.tasks ++ [⟨maxItemId s.tasks + 1, txt, false⟩] ∧
      (autoSkipPendingTask s cd f).1.pending_task_text = none ∧
      (autoSkipPendingTask s cd f).1.awaiting_tag = false ∧
      (autoSkipPendingTask s cd f).1.pending_task_message_id = none ∧
      (autoSkipPendingTask s cd f).1.pending_service_message_ids = [] ∧
      (autoSkipPendingTask s cd f).1.pending_confirm_job_id = none) := by
  constructor
  · intro h
    unfold autoSkipPendingTask
    rw [h]
  · intro txt ht htne hdup
    have hpost := finalizeTaskWithoutTag_post s cd f txt ht htne hdup
    unfold autoSkipPendingTask
    rw [ht]
    simp only
    rw [if_neg htne]
    exact hpost

/-- A record with the non-duplicate pending text "Call mom" when the
auto-skip timeout fires. -/
def c9WitnessState : UserState :=
  { pending_task_text := some "Call mom", awaiting_tag := true,
    checklist_message_id := some 10, tasks := [⟨1, "buy milk", false⟩] }

/-- Witness for the amended C9: the non-duplicate pending task is committed
untagged with item id 2 and `awaiting_tag` returns to `false`. -/
theorem claim_C9_pending_timeout_amended_witness :
    c9WitnessState.pending_task_text = some "Call mom" ∧
    (autoSkipPendingTask c9WitnessState 0 100).1.tasks
        = cleanTasksList c9WitnessState.tasks
            ++ [⟨maxItemId c9WitnessState.tasks + 1, "Call mom", false⟩] ∧
    (autoSkipPendingTask c9WitnessState 0 100).1.awaiting_tag = false :=
  ⟨rfl,
   ((claim_C9_pending_timeout_amended c9WitnessState 0 100).2 "Call mom" rfl
      (by decide) (by decide)).1,
   ((claim_C9_pending_timeout_amended c9WitnessState 0 100).2 "Call mom" rfl
      (by decide) (by decide)).2.2.1⟩

/-! ## Claim C10 -/

/-- On a list whose item ids are already pairwise distinct, the persist-time
cleanup reduces to its text-dedup pass. -/
theorem cleanTasksList_eq_textpass {l : List TaskItem}
    (h : l.Pairwise (fun a b => a.item_id ≠ b.item_id)) :
    cleanTasksList l = dedupByTextAux [] l := by
  unfold cleanTasksList
  split
  · rename_i he
    rw [List.isEmpty_iff.1 he]
    rfl
  · rw [dedupByIdAux_eq_self h (by simp)]

/-- The text-dedup pass keeps the first task of each trimmed-lowercase text
class. -/
theorem dedupByTextAux_first {t : TaskItem} :
    ∀ (l1 : List TaskItem) (seen : List String) (l2 : List TaskItem),
    stripLower t.text ∉ seen →
    (∀ u ∈ l1, stripLower u.text ≠ stripLower t.text) →
    t ∈ dedupByTextAux seen (l1 ++ t :: l2) := by
  intro l1
  induction l1 with
  | nil =>
    intro seen l2 hs h1
    simp only [List.nil_append, dedupByTextAux]
    rw [if_neg (by simpa using hs)]
    exact List.mem_cons_self _ _
  | cons a as ih =>
    intro seen l2 hs h1
    simp only [List.cons_append, dedupByTextAux]
    split
    · exact ih seen l2 hs (fun u hu => h1 u (List.mem_cons_of_mem _ hu))
    · refine List.mem_cons_of_mem _ ?_
      refine ih _ l2 ?_ (fun u hu => h1 u (List.mem_cons_of_mem _ hu))
      simp only [List.mem_cons, not_or]
      exact ⟨fun he => h1 a (List.mem_cons_self _ _) he.symm, hs⟩

/-- The text-dedup pass collapses every unseen trimmed-lowercase text class
to at most one representative and drops already-seen classes entirely. -/
theorem dedupByTextAux_countP (key : String) :
    ∀ (l : List TaskItem) (seen : List String),
    (dedupByTextAux seen l).countP (fun u => stripLower u.text == key)
      = if key ∈ seen then 0
        else min 1 (l.countP (fun u => stripLower u.text == key)) := by
  intro l
  induction l with
  | nil =>
    intro seen
    simp only [dedupByTextAux, List.countP_nil]
    split <;> simp
  | cons a ts ih =>
    intro seen
    simp only [dedupByTextAux]
    by_cases hm : stripLower a.text ∈ seen
    · rw [if_pos (by simpa using hm)]
      rw [ih seen]
      by_cases hk : key ∈ seen
      · rw [if_pos hk, if_pos hk]
      · have hne : (stripLower a.text == key) = false := by
          simp only [beq_eq_false_iff_ne]
          intro he
          exact hk (he ▸ hm)
        rw [if_neg hk, if_neg hk]
        simp [List.countP_cons, hne]
    · rw [if_neg (by simpa using hm)]
      rw [List.countP_cons, ih (stripLower a.text :: seen)]
      by_cases hk : key = stripLower a.text
      · subst hk
        rw [if_pos (List.mem_cons_self _ _), if_neg hm]
        rw [List.countP_cons]
        simp [Nat.min_def]
      · have hbk : (stripLower a.text == key) = false := by
          simp only [beq_eq_false_iff_ne]
          exact fun he => hk he.symm
        rw [hbk]
        have hmem : (key ∈ stripLower a.text :: seen) ↔ key ∈ seen := by
          simp [hk]
        by_cases hk2 : key ∈ seen
        · rw [if_pos (hmem.2 hk2), if_pos hk2]
          simp
        · rw [if_neg (fun hc => hk2 (hmem.1 hc)), if_neg hk2]
          rw [List.countP_cons, hbk]
          simp

/-- A record whose daily list repeats item id 1 and carries a later
case-insensitive text duplicate of the id-shadowed task "a". -/
def c10CexState : UserState :=
  { tasks := [⟨1, "x", false⟩, ⟨1, "a", false⟩, ⟨2, "A", false⟩] }

/-- C10 counterexample.  It is NOT true that any second task whose text
case-insensitively duplicates an earlier task is dropped at persist time: the
id-dedup pass runs FIRST, and when it removes the earlier task of a text
class (here ⟨1,"a"⟩, shadowed by item id 1), the later duplicate ⟨2,"A"⟩
survives the text pass and is kept in the saved list. -/
theorem claim_C10_counterexample :
    stripLower "A" = stripLower "a" ∧
    c10CexState.tasks = [⟨1, "x", false⟩, ⟨1, "a", false⟩, ⟨2, "A", false⟩] ∧
    (saveUserState c10CexState).tasks = [⟨1, "x", false⟩, ⟨2, "A", false⟩] ∧
    (⟨2, "A", false⟩ : TaskItem) ∈ (saveUserState c10CexState).tasks :=
  ⟨by decide, rfl, by decide, by decide⟩

/-- C10 (amended).  Every save rewrites the daily and tag task lists into
sublists of the originals in which no two tasks share an `item_id` and no two
tasks share a trimmed lowercase text.  On a list whose item ids are already
pairwise distinct (the invariant case), the cleanup keeps exactly the first
task of each trimmed-lowercase text class and drops every later duplicate:
the first occurrence survives and each class retains at most one
representative.  When item ids DO repeat, the id pass runs first and a later
text duplicate can survive (see the counterexample). -/
theorem claim_C10_persist_dedup_amended (s : UserState) :
    ((saveUserState s).tasks.Pairwise (fun a b => a.item_id ≠ b.item_id) ∧
     (saveUserState s).tasks.Pairwise
       (fun a b => stripLower a.text ≠ stripLower b.text) ∧
     List.Sublist (saveUserState s).tasks s.tasks) ∧
    (∀ p ∈ (saveUserState s).tag_checklists,
      p.2.tasks.Pairwise (fun a b => a.item_id ≠ b.item_id) ∧
      p.2.tasks.Pairwise (fun a b => stripLower a.text ≠ stripLower b.text) ∧
      ∃ q ∈ s.tag_checklists, p.1 = q.1 ∧ List.Sublist p.2.tasks q.2.tasks) ∧
    (s.tasks.Pairwise (fun a b => a.item_id ≠ b.item_id) →
      (∀ l1 t l2, s.tasks = l1 ++ t :: l2 →
        (∀ u ∈ l1, stripLower u.text ≠ stripLower t.text) →
        t ∈ (saveUserState s).tasks) ∧
      (∀ key, ((saveUserState s).tasks.countP
          (fun u => stripLower u.text == key))
        = min 1 (s.tasks.countP (fun u => stripLower u.text == key)))) := by
  refine ⟨?_, ?_, ?_⟩
  · rw [saveUserState_tasks]
    exact ⟨cleanTasksList_pairwise_id _, cleanTasksList_pairwise_text _,
      cleanTasksList_sublist _⟩
  · intro p hp
    rw [saveUserState_tag_checklists] at hp
    rw [List.mem_map] at hp
    obtain ⟨q, hq, rfl⟩ := hp
    exact ⟨cleanTasksList_pairwise_id _, cleanTasksList_pairwise_text _,
      q, hq, rfl, cleanTasksList_sublist _⟩
  · intro h
    constructor
    · intro l1 t l2 hdec hfirst
      rw [saveUserState_tasks, cleanTasksList_eq_textpass h, hdec]
      exact dedupByTextAux_first l1 [] l2 (by simp) hfirst
    · intro key
      rw [saveUserState_tasks, cleanTasksList_eq_textpass h,
        dedupByTextAux_countP key s.tasks []]
      rw [if_neg (by simp)]

/-- A record with pairwise-distinct item ids, the task "a" and its later
differently-spelled duplicate " A ". -/
def c10WitnessState : UserState :=
  { tasks := [⟨1, "a", false⟩, ⟨2, " A ", false⟩, ⟨3, "b", false⟩] }

/-- Witness for the amended C10: the first occurrence of the "a" text class
is kept by the save, and the class collapses to exactly one representative. -/
theorem claim_C10_persist_dedup_amended_witness :
    c10WitnessState.tasks.Pairwise (fun a b => a.item_id ≠ b.item_id) ∧
    (⟨1, "a", false⟩ : TaskItem) ∈ (saveUserState c10WitnessState).tasks ∧
    (saveUserState c10WitnessState).tasks.countP
        (fun u => stripLower u.text == "a")
      = min 1 (c10WitnessState.tasks.countP (fun u => stripLower u.text == "a")) :=
  ⟨by decide,
   ((claim_C10_persist_dedup_amended c10WitnessState).2.2 (by decide)).1
     [] ⟨1, "a", false⟩ [⟨2, " A ", false⟩, ⟨3, "b", false⟩] rfl (by decide),
   ((claim_C10_persist_dedup_amended c10WitnessState).2.2 (by decide)).2 "a"⟩
